import Mathlib

/-!
Block storage lifecycle and Kubernetes payload shaping of the e2e Terraform
provider.

A shallow embedding of `e2e/blockstorage/resource_block_storage.go` and of
`RemoveExtraFieldsFromKubernetes` / `NewKubernetesService` from
`client/kubernetes_client.go`.

Modelling conventions.

* A value decoded by `encoding/json` into `interface{}` is a `Json`; a
  `map[string]interface{}` is an association list read with `List.lookup`
  (an absent key is the nil interface).
* A finite `float64` is the rational number it denotes.  The result of a
  floating-point operation is the exact result passed through `GoEnv.round`,
  which is a parameter: every theorem holds for every rounding function.
  NaN and the infinities are outside the model.
* `int` is 64 bits wide.  A conversion `int(f)` of an in-range value truncates
  toward zero; out of range Go leaves the result to the implementation, which
  is the parameter `GoEnv.intOverflow`.
* The API client is an oracle `Client`: the answer to a call is a function of
  the whole history of calls made so far (the call itself being the last one),
  so two identical polls may be answered differently.  Every handler threads
  the history (`trace`) and appends the calls it issues.
* `schema.ResourceData` is three attribute records: `old` (prior state, the
  first result of `GetChange`), `new` (planned value, the second result of
  `GetChange`) and `cur` (what `Get` reads: the planned value overlaid with
  the writes made by `Set`).  `HasChange k` compares `old` and `new`.
* A failed type assertion `x.(T)` is a run-time panic: `Result.panic`.
  The unbounded polling loop of `waitForDetach` runs on fuel;
  `Result.blocked` is the loop still polling when the fuel is used up.
-/

namespace E2E

/-! ## JSON values -/

/-- Values that `json.Unmarshal` stores in an `interface{}`. -/
inductive Json where
  | null
  | bool (b : Bool)
  | num (q : ℚ)
  | str (s : String)
  | arr (xs : List Json)
  | obj (kvs : List (String × Json))

/-- A decoded `map[string]interface{}`. -/
abbrev JMap := List (String × Json)

/-! ## Go runtime and library parameters -/

/-- Parts of the Go runtime and standard library whose exact results play no
role in the program logic. -/
structure GoEnv where
  /-- Rounding of an exact arithmetic result to `float64`. -/
  round : ℚ → ℚ
  /-- Implementation-dependent result of `int(f)` when `f` is out of range. -/
  intOverflow : ℚ → Int
  /-- Text of `fmt.Sprintf(format)` with no operands, for a format holding a verb. -/
  Sprintf : String → String
  /-- Text of the verb `%v` applied to an interface value. -/
  SprintV : Option Json → String
  /-- Text of the error of `strconv.Atoi` on an input it rejects. -/
  AtoiError : String → String

/-- Truncation toward zero. -/
def truncate (q : ℚ) : Int := if 0 ≤ q then ⌊q⌋ else ⌈q⌉

/-- The conversion `int(f)` of a `float64`. -/
def toInt (rt : GoEnv) (f : ℚ) : Int :=
  if -(2 ^ 63 : Int) ≤ truncate f ∧ truncate f < (2 ^ 63 : Int) then truncate f
  else rt.intOverflow f

/-- The function `math.Round`: nearest integer, halves away from zero. -/
def mathRound (f : ℚ) : ℚ := if 0 ≤ f then (⌊f + 1 / 2⌋ : Int) else (⌈f - 1 / 2⌉ : Int)

/-- The function `strconv.Itoa`. -/
def Itoa (n : Int) : String := toString n

/-- Value of a decimal digit. -/
def digitVal (c : Char) : Option Nat :=
  if 48 ≤ c.toNat ∧ c.toNat ≤ 57 then some (c.toNat - 48) else none

/-- Value of a non-empty all-digit string read left to right from `acc`. -/
def parseDigits : List Char → Nat → Option Nat
  | [], _ => none
  | [c], acc => (digitVal c).map (fun v => acc * 10 + v)
  | c :: c2 :: cs, acc =>
    match digitVal c with
    | some v => parseDigits (c2 :: cs) (acc * 10 + v)
    | none => none

/-- The function `strconv.Atoi`: an optional sign, then decimal digits, the
value within the range of `int`. -/
def Atoi (rt : GoEnv) (s : String) : Except String Int :=
  let parsed : Option Int :=
    match s.toList with
    | '-' :: ds => (parseDigits ds 0).map (fun n => -(n : Int))
    | '+' :: ds => (parseDigits ds 0).map (fun n => (n : Int))
    | ds => (parseDigits ds 0).map (fun n => (n : Int))
  match parsed with
  | some v =>
    if -(2 ^ 63 : Int) ≤ v ∧ v < (2 ^ 63 : Int) then .ok v else .error (rt.AtoiError s)
  | none => .error (rt.AtoiError s)

/-- Whether the characters `p` start the list `cs`. -/
def startsWithChars : List Char → List Char → Bool
  | _, [] => true
  | [], _ :: _ => false
  | c :: cs, p :: ps => c == p && startsWithChars cs ps

/-- Whether `sub` occurs as a contiguous block in `cs`. -/
def containsChars : List Char → List Char → Bool
  | [], sub => startsWithChars [] sub
  | c :: cs, sub => startsWithChars (c :: cs) sub || containsChars cs sub

/-- The function `strings.Contains`. -/
def Contains (s substr : String) : Bool := containsChars s.toList substr.toList

/-- The function `diag.Errorf` called with a format and no operands. -/
def Errorf (rt : GoEnv) (format : String) : String :=
  if format.toList.contains (Char.ofNat 37) then rt.Sprintf format else format

/-! ## The API client -/

/-- Calls of the block storage API client, with their arguments. -/
inductive Call where
  | GetBlockStoragePlans (project_id : Int) (location : String)
  | NewBlockStorage (name : String) (size : ℚ) (iops : String) (project_id : Int)
      (location : String)
  | GetBlockStorage (blockStorageID : String) (project_id : Int) (location : String)
  | AttachOrDetachBlockStorage (vm_id : Int) (action : String) (blockStorageID : String)
      (project_id : Int) (location : String)
  | UpdateBlockStorage (name : String) (size : ℚ) (vm_id : ℚ) (blockStorageID : String)
      (project_id : Int) (location : String)
  | DeleteBlockStorage (blockStorageID : String) (project_id : Int) (location : String)
  deriving DecidableEq

/-- The remote API: the answer to the last call of a history, an error text or
a decoded response body. -/
abbrev Client := List Call → Except String JMap

/-! ## Resource data -/

/-- The attributes of the block storage schema. -/
structure Attrs where
  name : String
  size : ℚ
  iops : String
  project_id : Int
  location : String
  status : String
  vm_id : Option String
  vm_name : Option String

/-- The type `schema.ResourceData`. -/
structure ResourceData where
  id : String
  old : Attrs
  new : Attrs
  cur : Attrs

/-- Reading a string attribute that may be absent gives the zero value. -/
def strOf (v : Option String) : String := v.getD ""

/-- How a handler ends. -/
inductive Result where
  | diags (ds : List String)
  | panic
  | blocked

/-- A finished (or interrupted) handler run. -/
structure Run where
  result : Result
  d : ResourceData
  trace : List Call

/-! ## Block storage handlers -/

/-- The function `calculateIOPS`. -/
def calculateIOPS (rt : GoEnv) (size : ℚ) : String :=
  let iops := rt.round (size * 15)
  Itoa (toInt rt iops)

/-- The loop of `validateSize` over the available plans. -/
def validateSizeLoop (rt : GoEnv) (want : ℚ) : List Json → Bool → Except String Bool
  | [], isSizeValid => .ok isSizeValid
  | val :: rest, isSizeValid =>
    match val with
    | .obj plan =>
      match plan.lookup "bs_size" with
      | some (.num size) =>
        let size := rt.round (size * 1000)
        validateSizeLoop rt want rest (isSizeValid || decide (size = want))
      | _ => .error "failed to assert bs_size to float64"
    | _ => .error "failed to assert val to map[string]interface\x7b\x7d"

/-- The function `validateSize`: `none` is a panic, `some none` the nil error. -/
def validateSize (rt : GoEnv) (api : Client) (d : ResourceData) (tr : List Call) :
    Option (Option String) × List Call :=
  let tr1 := tr ++ [Call.GetBlockStoragePlans d.cur.project_id d.cur.location]
  match api tr1 with
  | .error err => (some (some err), tr1)
  | .ok resPlans =>
    match resPlans.lookup "data" with
    | some (.arr availablePlans) =>
      match validateSizeLoop rt d.cur.size availablePlans false with
      | .error err => (some (some err), tr1)
      | .ok isSizeValid =>
        if !isSizeValid then (some (some "BlockStorage Size not available in the plans"), tr1)
        else (some none, tr1)
    | _ => (none, tr1)

/-- The handler `resourceCreateBlockStorage`. -/
def resourceCreateBlockStorage (rt : GoEnv) (api : Client) (d : ResourceData)
    (tr : List Call) : Run :=
  match validateSize rt api d tr with
  | (none, tr1) => ⟨.panic, d, tr1⟩
  | (some (some err), tr1) => ⟨.diags [err], d, tr1⟩
  | (some none, tr1) =>
    let name := d.cur.name
    let size := d.cur.size
    let iops := calculateIOPS rt size
    let tr2 := tr1 ++ [Call.NewBlockStorage name size iops d.cur.project_id d.cur.location]
    match api tr2 with
    | .error err => ⟨.diags [err], d, tr2⟩
    | .ok resBlockStorage =>
      match resBlockStorage.lookup "code" with
      | none =>
        match resBlockStorage.lookup "message" with
        | some (.str msg) => ⟨.diags [Errorf rt msg], d, tr2⟩
        | _ => ⟨.panic, d, tr2⟩
      | some _ =>
        match resBlockStorage.lookup "data" with
        | some (.obj data) =>
          match data.lookup "is_credit_sufficient" with
          | some (.bool false) =>
            match resBlockStorage.lookup "message" with
            | some (.str msg) => ⟨.diags [Errorf rt msg], d, tr2⟩
            | _ => ⟨.panic, d, tr2⟩
          | _ =>
            match data.lookup "id" with
            | some (.num blockStorageIDFloat) =>
              let blockStorageID := toInt rt (mathRound blockStorageIDFloat)
              let d1 := { d with id := Itoa blockStorageID }
              let d2 := { d1 with cur := { d1.cur with iops := iops } }
              ⟨.diags [], d2, tr2⟩
            | other =>
              ⟨.diags ["Block ID is not a valid float64 in the response " ++ rt.SprintV other],
                d, tr2⟩
        | _ => ⟨.panic, d, tr2⟩

/-- The handler `resourceReadBlockStorage`. -/
def resourceReadBlockStorage (rt : GoEnv) (api : Client) (d : ResourceData)
    (tr : List Call) : Run :=
  let blockStorageID := d.id
  let tr1 := tr ++ [Call.GetBlockStorage blockStorageID d.cur.project_id d.cur.location]
  match api tr1 with
  | .error err =>
    if Contains err "not found" then ⟨.diags [], { d with id := "" }, tr1⟩
    else ⟨.diags ["error finding Block Storage with ID " ++ blockStorageID ++ ": " ++ err],
      d, tr1⟩
  | .ok blockStorage =>
    match blockStorage.lookup "data" with
    | some (.obj data) =>
      match data.lookup "template" with
      | some (.obj template) =>
        match data.lookup "vm_detail" with
        | some (.obj vm_detail) =>
          match data.lookup "name" with
          | some (.str name) =>
            let d1 := { d with cur := { d.cur with name := name } }
            match data.lookup "status" with
            | some (.str status) =>
              let d2 := { d1 with cur := { d1.cur with status := status } }
              match template.lookup "TOTAL_IOPS_SEC" with
              | some (.str iops) =>
                let d3 := { d2 with cur := { d2.cur with iops := iops } }
                match vm_detail.lookup "vm_id" with
                | some val =>
                  match val with
                  | .num f =>
                    let d4 := { d3 with cur := { d3.cur with vm_id := some (Itoa (toInt rt f)) } }
                    match vm_detail.lookup "vm_name" with
                    | some (.str vm_name) =>
                      ⟨.diags [], { d4 with cur := { d4.cur with vm_name := some vm_name } }, tr1⟩
                    | _ => ⟨.panic, d4, tr1⟩
                  | _ => ⟨.panic, d3, tr1⟩
                | none =>
                  ⟨.diags [], { d3 with cur := { d3.cur with vm_id := none, vm_name := none } },
                    tr1⟩
              | _ => ⟨.panic, d2, tr1⟩
            | _ => ⟨.panic, d1, tr1⟩
          | _ => ⟨.panic, d, tr1⟩
        | _ => ⟨.panic, d, tr1⟩
      | _ => ⟨.panic, d, tr1⟩
    | _ => ⟨.panic, d, tr1⟩

/-- The handler `resourceDeleteBlockStorage`. -/
def resourceDeleteBlockStorage (api : Client) (d : ResourceData) (tr : List Call) : Run :=
  let blockStorageID := d.id
  let node_status := d.cur.status
  if node_status = "Saving" ∨ node_status = "Creating" then
    ⟨.diags ["Node in " ++ node_status ++ " state"], d, tr⟩
  else
    let tr1 := tr ++ [Call.DeleteBlockStorage blockStorageID d.cur.project_id d.cur.location]
    match api tr1 with
    | .error err => ⟨.diags [err], d, tr1⟩
    | .ok _ => ⟨.diags [], { d with id := "" }, tr1⟩

/-- The function `setPrevState`. -/
def setPrevState (d : ResourceData) (prevVMID : String) (prevName : String) (prevSize : ℚ) :
    ResourceData :=
  { d with cur := { d.cur with vm_id := some prevVMID, name := prevName, size := prevSize } }

/-- The function `waitForDetach`, run for at most `fuel` polls.  The value is
the returned diagnostics (`Result.diags []` for nil), a panic, or
`Result.blocked` when the loop is still polling after `fuel` reads. -/
def waitForDetach (api : Client) (blockStorageID : String) (project_id : Int)
    (location : String) : Nat → List Call → Result × List Call
  | 0, tr => (.blocked, tr)
  | fuel + 1, tr =>
    let tr1 := tr ++ [Call.GetBlockStorage blockStorageID project_id location]
    match api tr1 with
    | .error err => (.diags [err], tr1)
    | .ok blockStorage =>
      match blockStorage.lookup "data" with
      | some (.obj data) =>
        match data.lookup "status" with
        | some (.str "Available") => (.diags [], tr1)
        | _ => waitForDetach api blockStorageID project_id location fuel tr1
      | _ => (.panic, tr1)

/-- Lines 251-296 of `resourceUpdateBlockStorage`: the size/name category,
and the closing read when neither changed.  `blockStorage` is the body of the
GET issued at the start of the update. -/
def updateSizeOrName (rt : GoEnv) (api : Client) (blockStorage : JMap)
    (blockStorageID : String) (project_id : Int) (location : String)
    (d : ResourceData) (tr : List Call) : Run :=
  if d.old.size ≠ d.new.size ∨ d.old.name ≠ d.new.name then
    let prevName := d.old.name
    let currName := d.new.name
    let prevSize := d.old.size
    let currSize := d.new.size
    let restore (d : ResourceData) : ResourceData :=
      { d with cur := { d.cur with size := prevSize, name := prevName } }
    match validateSize rt api d tr with
    | (none, tr1) => ⟨.panic, d, tr1⟩
    | (some (some err), tr1) => ⟨.diags [err], restore d, tr1⟩
    | (some none, tr1) =>
      if d.cur.status = "Attached" then
        let tolerance : ℚ := rt.round (1 / 1000000)
        if currSize > rt.round (prevSize + tolerance) then
          match blockStorage.lookup "data" with
          | some (.obj data) =>
            match data.lookup "vm_detail" with
            | some (.obj vm_detail) =>
              match vm_detail.lookup "vm_id" with
              | some (.num vmID) =>
                let tr2 := tr1 ++ [Call.UpdateBlockStorage currName currSize vmID
                  blockStorageID project_id location]
                match api tr2 with
                | .error err => ⟨.diags [err], restore d, tr2⟩
                | .ok resBlockStorage =>
                  match resBlockStorage.lookup "code" with
                  | none =>
                    match resBlockStorage.lookup "message" with
                    | some (.str msg) => ⟨.diags [Errorf rt msg], restore d, tr2⟩
                    | _ => ⟨.panic, restore d, tr2⟩
                  | some _ => ⟨.diags [], d, tr2⟩
              | _ => ⟨.panic, d, tr1⟩
            | _ => ⟨.panic, d, tr1⟩
          | _ => ⟨.panic, d, tr1⟩
        else
          ⟨.diags [Errorf rt
            "You cannot change the block storage size and name unless you are upgrading it"],
            restore d, tr1⟩
      else
        ⟨.diags [Errorf rt
          "You cannot upgrade a block storage name or size unless it is attached to a node"],
          restore d, tr1⟩
  else
    resourceReadBlockStorage rt api d tr

/-- Lines 218-249 of `resourceUpdateBlockStorage`: the wait for the detach,
then the attach when a VM is requested; otherwise on to the size/name
category. -/
def updateWaitAndAttach (fuel : Nat) (rt : GoEnv) (api : Client) (blockStorage : JMap)
    (blockStorageID : String) (project_id : Int) (location : String)
    (d : ResourceData) (tr : List Call) : Run :=
  let prevVMID := strOf d.old.vm_id
  let currVMID := strOf d.new.vm_id
  let prevName := d.old.name
  let prevSize := d.old.size
  match waitForDetach api blockStorageID project_id location fuel tr with
  | (.blocked, tr1) => ⟨.blocked, d, tr1⟩
  | (.panic, tr1) => ⟨.panic, d, tr1⟩
  | (.diags _, tr1) =>
    if currVMID ≠ "" then
      if d.cur.status = "Available" then
        match Atoi rt currVMID with
        | .error err => ⟨.diags [err], setPrevState d "" prevName prevSize, tr1⟩
        | .ok vm_id =>
          let tr2 := tr1 ++ [Call.AttachOrDetachBlockStorage vm_id "attach" blockStorageID
            project_id location]
          match api tr2 with
          | .error err => ⟨.diags [err], setPrevState d "" prevName prevSize, tr2⟩
          | .ok resBlockStorage =>
            match resBlockStorage.lookup "code" with
            | none =>
              match resBlockStorage.lookup "message" with
              | some (.str msg) =>
                ⟨.diags [Errorf rt msg], setPrevState d "" prevName prevSize, tr2⟩
              | _ => ⟨.panic, setPrevState d "" prevName prevSize, tr2⟩
            | some _ => ⟨.diags [], d, tr2⟩
      else
        ⟨.diags [Errorf rt
          "block storage cannot be attached to a node unless it is in available state"],
          setPrevState d prevVMID prevName prevSize, tr1⟩
    else
      updateSizeOrName rt api blockStorage blockStorageID project_id location d tr1

/-- The handler `resourceUpdateBlockStorage`; `fuel` bounds the polls of
`waitForDetach`. -/
def resourceUpdateBlockStorage (fuel : Nat) (rt : GoEnv) (api : Client) (d : ResourceData)
    (tr : List Call) : Run :=
  let blockStorageID := d.id
  let project_id := d.cur.project_id
  let location := d.cur.location
  let tr1 := tr ++ [Call.GetBlockStorage blockStorageID project_id location]
  match api tr1 with
  | .error err =>
    if Contains err "not found" then ⟨.diags [], { d with id := "" }, tr1⟩
    else ⟨.diags ["error finding Block Storage with ID " ++ blockStorageID ++ ": " ++ err],
      d, tr1⟩
  | .ok blockStorage =>
    if d.old.location ≠ d.new.location then
      let prevLocation := d.old.location
      ⟨.diags [Errorf rt "Location cannot be changed once the block storage is created"],
        { d with cur := { d.cur with location := prevLocation } }, tr1⟩
    else if d.old.project_id ≠ d.new.project_id then
      let prevProjectID := d.old.project_id
      ⟨.diags [Errorf rt "Project ID cannot be changed once the block storage is created"],
        { d with cur := { d.cur with project_id := prevProjectID } }, tr1⟩
    else if strOf d.old.vm_id ≠ strOf d.new.vm_id then
      let prevVMID := strOf d.old.vm_id
      let prevName := d.old.name
      let prevSize := d.old.size
      if d.cur.status = "Attached" ∧ prevVMID ≠ "" then
        match Atoi rt prevVMID with
        | .error err => ⟨.diags [err], setPrevState d prevVMID prevName prevSize, tr1⟩
        | .ok vm_id =>
          let tr2 := tr1 ++ [Call.AttachOrDetachBlockStorage vm_id "detach" blockStorageID
            project_id location]
          match api tr2 with
          | .error err => ⟨.diags [err], setPrevState d prevVMID prevName prevSize, tr2⟩
          | .ok _ =>
            let d1 := { d with cur := { d.cur with status := "Available" } }
            updateWaitAndAttach fuel rt api blockStorage blockStorageID project_id location d1 tr2
      else
        updateWaitAndAttach fuel rt api blockStorage blockStorageID project_id location d tr1
    else
      updateSizeOrName rt api blockStorage blockStorageID project_id location d tr1

/-! ## Kubernetes payload shaping -/

/-- The content of a `bytes.Buffer`. -/
abbrev Bytes := List UInt8

/-- The package `encoding/json`, as used on the cluster-create payload. -/
structure JsonCodec where
  /-- Decoding `json.Unmarshal` into a `map[string]interface{}`. -/
  Unmarshal : Bytes → Except String JMap
  /-- Encoding `json.Marshal` of a map. -/
  Marshal : JMap → Except String Bytes

/-- The built-in `delete(m, key)`. -/
def JMap.delete (m : JMap) (key : String) : JMap := m.filter (fun kv => kv.1 != key)

/-- The body of the loop of `RemoveExtraFieldsFromKubernetes` on one entry of
`node_pools`; the map is updated in place, so the entry is the updated map. -/
def stripNodePool (nodePool : Json) : Json :=
  match nodePool with
  | .obj nodePoolMap =>
    match nodePoolMap.lookup "worker_node" with
    | some (.num workerNode) =>
      if workerNode = 0 then .obj (JMap.delete nodePoolMap "worker_node")
      else if workerNode ≥ 2 then
        match nodePoolMap.lookup "elasticity_dict" with
        | some _ => .obj (JMap.delete nodePoolMap "elasticity_dict")
        | none => .obj nodePoolMap
      else .obj nodePoolMap
    | _ => .obj nodePoolMap
  | other => other

/-- The map `m` with the value stored under an existing key replaced. -/
def JMap.replace (m : JMap) (key : String) (v : Json) : JMap :=
  m.map (fun kv => if kv.1 = key then (kv.1, v) else kv)

/-- The function `RemoveExtraFieldsFromKubernetes`: the returned buffer and
error (`none` is nil). -/
def RemoveExtraFieldsFromKubernetes (codec : JsonCodec) (buf : Bytes) :
    Bytes × Option String :=
  match codec.Unmarshal buf with
  | .error err => (buf, some err)
  | .ok data =>
    match data.lookup "node_pools" with
    | some (.arr nodePools) =>
      let data1 := JMap.replace data "node_pools" (.arr (nodePools.map stripNodePool))
      match codec.Marshal data1 with
      | .error _ => (buf, none)
      | .ok NewjsonData => (NewjsonData, none)
    | _ => (buf, some "node_pools field is missing or invalid")

/-- Lines 108-116 of `NewKubernetesService`, from the encoded item on: the
payload handed to the POST request (`Except.ok`), or the error returned before
any request is built. -/
def NewKubernetesService_payload (codec : JsonCodec) (buf : Bytes) : Except String Bytes :=
  match RemoveExtraFieldsFromKubernetes codec buf with
  | (_, some err) => .error err
  | (buf1, none) => .ok buf1


/-- The shaping of one node pool entry in the words of the specification:
an entry that is an object loses `worker_node` when that field is the number
0, loses `elasticity_dict` when `worker_node` is a number at least 2, and
keeps every other field; in every other case the entry is unchanged. -/
def NodePoolShaped (inp out : Json) : Prop :=
  (∀ m, inp = Json.obj m → ∃ m1, out = Json.obj m1 ∧
    (m.lookup "worker_node" = some (Json.num 0) →
      m1.lookup "worker_node" = none ∧
      ∀ k, k ≠ "worker_node" → m1.lookup k = m.lookup k) ∧
    ((∃ w, m.lookup "worker_node" = some (Json.num w) ∧ w ≥ 2) →
      m1.lookup "elasticity_dict" = none ∧
      ∀ k, k ≠ "elasticity_dict" → m1.lookup k = m.lookup k) ∧
    ((∀ w, m.lookup "worker_node" = some (Json.num w) → w ≠ 0 ∧ ¬ w ≥ 2) → m1 = m)) ∧
  ((∀ m, inp ≠ Json.obj m) → out = inp)

/-! ## Kinds of API calls -/

/-- Whether a call is the upgrade call `UpdateBlockStorage`. -/
def Call.isUpgrade : Call → Bool
  | .UpdateBlockStorage _ _ _ _ _ _ => true
  | _ => false

/-- Whether a call is the plans call `GetBlockStoragePlans`. -/
def Call.isPlans : Call → Bool
  | .GetBlockStoragePlans _ _ => true
  | _ => false

/-- Whether a call is an `AttachOrDetachBlockStorage` call with the action
"attach". -/
def Call.isAttach : Call → Bool
  | .AttachOrDetachBlockStorage _ action _ _ _ => decide (action = "attach")
  | _ => false

/-- Whether a call belongs to the attachment category: a read of the volume
or an attach/detach call. -/
def Call.isReadOrAttachDetach : Call → Bool
  | .GetBlockStorage _ _ _ => true
  | .AttachOrDetachBlockStorage _ _ _ _ _ => true
  | _ => false

/-- What the calls issued by an update acting on a changed `vm_id` look like,
`requested` being the new `vm_id`: never an upgrade; reads and attach/detach
calls only when a VM is requested; no attach when none is. -/
def VmChangeCalls (requested : String) (issued : List Call) : Prop :=
  (∀ c ∈ issued, c.isUpgrade = false) ∧
  (requested ≠ "" → ∀ c ∈ issued, c.isReadOrAttachDetach = true) ∧
  (requested = "" → ∀ c ∈ issued, c.isAttach = false)

/-- The resource data `out` holds the previous name and size of `d` and the
`vm_id`, location and project that `d` currently reads. -/
def NameSizeRestored (d out : ResourceData) : Prop :=
  out.cur.name = d.old.name ∧ out.cur.size = d.old.size ∧ out.cur.vm_id = d.cur.vm_id ∧
  out.cur.location = d.cur.location ∧ out.cur.project_id = d.cur.project_id

/-! ## Sample inputs -/

/-- A runtime with exact arithmetic. -/
def rtExact : GoEnv where
  round := id
  intOverflow := fun _ => -(2 ^ 63)
  Sprintf := id
  SprintV := fun _ => "<nil>"
  AtoiError := fun s => "strconv.Atoi: parsing " ++ s ++ ": invalid syntax"

/-- Attributes of a detached 1000 GB volume. -/
def sampleAttrs : Attrs :=
  { name := "bs1", size := 1000, iops := "15000", project_id := 7, location := "Delhi",
    status := "Available", vm_id := none, vm_name := none }

/-- Resource data with no pending change. -/
def sampleData : ResourceData :=
  { id := "42", old := sampleAttrs, new := sampleAttrs, cur := sampleAttrs }

/-- A plans response offering 1 TB and 2 TB. -/
def samplePlans : JMap :=
  [("code", .num 200),
   ("data", .arr [.obj [("bs_size", .num 1)], .obj [("bs_size", .num 2)]])]

/-- Resource data requesting 1500 GB. -/
def dataSize1500 : ResourceData :=
  { sampleData with cur := { sampleAttrs with size := 1500 } }

/-- A server that answers every call with the sample plans. -/
def apiPlansOnly : Client := fun _ => .ok samplePlans

/-- A server on which every call succeeds with an empty body. -/
def apiEmptyOk : Client := fun _ => .ok []

/-- Resource data of a volume being saved. -/
def dataSaving : ResourceData :=
  { sampleData with cur := { sampleAttrs with status := "Saving" } }

/-- A server that no longer knows the volume. -/
def apiNotFound : Client := fun _ => .error "block storage not found"

/-- Resource data whose planned location differs from the stored one. -/
def dataLocationChanged : ResourceData :=
  { sampleData with
    new := { sampleAttrs with location := "Mumbai" },
    cur := { sampleAttrs with location := "Mumbai" } }

/-- A GET response body without the `vm_detail` sub-object. -/
def getResponseNoVmDetail : JMap :=
  [("code", .num 200),
   ("data", .obj [("name", .str "bs1"), ("status", .str "Available"),
      ("template", .obj [("TOTAL_IOPS_SEC", .str "15000")])])]

/-- A server answering every call with `getResponseNoVmDetail`. -/
def apiGetNoVmDetail : Client := fun _ => .ok getResponseNoVmDetail

/-- Resource data of a volume attached to VM 12 that is to move to VM 34. -/
def dataMoveVm : ResourceData :=
  { id := "42",
    old := { sampleAttrs with status := "Attached", vm_id := some "12", vm_name := some "n12" },
    new := { sampleAttrs with status := "Attached", vm_id := some "34", vm_name := some "n12" },
    cur := { sampleAttrs with status := "Attached", vm_id := some "34", vm_name := some "n12" } }

/-- A GET response body of a volume attached to VM 12. -/
def getResponseAttached : JMap :=
  [("code", .num 200),
   ("data", .obj [("name", .str "bs1"), ("status", .str "Attached"),
      ("template", .obj [("TOTAL_IOPS_SEC", .str "15000")]),
      ("vm_detail", .obj [("vm_id", .num 12), ("vm_name", .str "n12")])])]

/-- A server on which the first read and the detach succeed, the first poll
fails with a transport error, and every later call succeeds. -/
def apiPollFails : Client := fun tr =>
  match tr with
  | [_] => .ok getResponseAttached
  | [_, _] => .ok [("code", .num 200)]
  | [_, _, _] => .error "gateway timeout"
  | _ => .ok [("code", .num 200)]

/-- Resource data whose planned size and location both differ from the stored
ones; the volume is not attached. -/
def dataSizeAndLocationChanged : ResourceData :=
  { sampleData with
    new := { sampleAttrs with size := 2000, location := "Mumbai" },
    cur := { sampleAttrs with size := 2000, location := "Mumbai" } }

/-- Resource data of a detached volume that is to grow from 1000 to 2000 GB. -/
def dataGrowDetached : ResourceData :=
  { sampleData with
    new := { sampleAttrs with size := 2000 },
    cur := { sampleAttrs with size := 2000 } }

/-- A server answering the first call with an empty body and every later call
with the sample plans. -/
def apiGetThenPlans : Client := fun tr =>
  match tr with
  | [_] => .ok []
  | _ => .ok samplePlans

/-- Attributes of a 1000 GB volume attached to VM 12. -/
def attachedAttrs : Attrs :=
  { sampleAttrs with status := "Attached", vm_id := some "12", vm_name := some "n12" }

/-- Resource data of an attached volume that is to grow from 1000 to 2000 GB. -/
def dataGrowAttached : ResourceData :=
  { id := "42", old := attachedAttrs,
    new := { attachedAttrs with size := 2000 },
    cur := { attachedAttrs with size := 2000 } }

/-- Resource data of an attached volume whose name alone is to change. -/
def dataRenameAttached : ResourceData :=
  { id := "42", old := attachedAttrs,
    new := { attachedAttrs with name := "bs2" },
    cur := { attachedAttrs with name := "bs2" } }

/-- A GET response body whose `vm_detail` is empty: the volume was detached
behind the provider. -/
def getResponseEmptyVmDetail : JMap :=
  [("code", .num 200),
   ("data", .obj [("name", .str "bs1"), ("status", .str "Available"),
      ("template", .obj [("TOTAL_IOPS_SEC", .str "15000")]),
      ("vm_detail", .obj [])])]

/-- A server answering the first call with `getResponseEmptyVmDetail` and
every later call with the sample plans. -/
def apiDetachedRemotely : Client := fun tr =>
  match tr with
  | [_] => .ok getResponseEmptyVmDetail
  | _ => .ok samplePlans

/-- A server answering the first call with `getResponseAttached` and every
later call with the sample plans (which carry a `code` field). -/
def apiAttachedThenPlans : Client := fun tr =>
  match tr with
  | [_] => .ok getResponseAttached
  | _ => .ok samplePlans

/-- A server answering the plans call with the sample plans and the create
call with a success body carrying the new ID 42. -/
def apiCreateOk : Client := fun tr =>
  match tr with
  | [_] => .ok samplePlans
  | _ => .ok [("code", .num 200),
      ("data", .obj [("id", .num 42), ("is_credit_sufficient", .bool true)])]

/-- A decoded cluster-create payload with three node pools, of 0, 3 and 1
worker nodes. -/
def samplePayload : JMap :=
  [("name", .str "k8s"),
   ("node_pools", .arr
      [.obj [("worker_node", .num 0), ("elasticity_dict", .obj [])],
       .obj [("worker_node", .num 3), ("elasticity_dict", .obj [])],
       .obj [("worker_node", .num 1), ("elasticity_dict", .obj [])]])]

/-- A stand-in codec: every buffer decodes to the sample payload, and a map is
encoded as the list of the lengths of its keys. -/
def codecSample : JsonCodec where
  Unmarshal := fun _ => .ok samplePayload
  Marshal := fun m => .ok (m.map (fun kv => kv.1.length.toUInt8))

/-- Resource data of a volume attached to VM 12 that is to be detached and,
in the same update, to grow from 1000 GB to 2000 GB. -/
def dataDetachAndGrow : ResourceData :=
  { id := "42",
    old := attachedAttrs,
    new := { attachedAttrs with vm_id := some "", size := 2000 },
    cur := { attachedAttrs with vm_id := some "", size := 2000 } }

/-- A GET response body of a detached volume. -/
def getResponseAvailable : JMap :=
  [("code", .num 200),
   ("data", .obj [("name", .str "bs1"), ("status", .str "Available"),
      ("template", .obj [("TOTAL_IOPS_SEC", .str "15000")]),
      ("vm_detail", .obj [])])]

/-- A server on which the first read reports the volume attached, the detach
succeeds, the first poll reports "Available", and every later call is answered
with the sample plans. -/
def apiDetachThenPlans : Client := fun tr =>
  match tr with
  | [_] => .ok getResponseAttached
  | [_, _] => .ok [("code", .num 200)]
  | [_, _, _] => .ok getResponseAvailable
  | _ => .ok samplePlans

/-- A server on which the first read reports the volume attached, the detach
succeeds, the first poll reports "Available", and every later call fails. -/
def apiAttachFails : Client := fun tr =>
  match tr with
  | [_] => .ok getResponseAttached
  | [_, _] => .ok [("code", .num 200)]
  | [_, _, _] => .ok getResponseAvailable
  | _ => .error "attach failed"

/-- A server on which every call fails with a transport error. -/
def apiTimeout : Client := fun _ => .error "timeout"

/-- Resource data whose planned size and project both differ from the stored
ones; the volume is not attached. -/
def dataSizeAndProjectChanged : ResourceData :=
  { sampleData with
    new := { sampleAttrs with size := 2000, project_id := 8 },
    cur := { sampleAttrs with size := 2000, project_id := 8 } }

/-- Resource data of a volume whose status reads "Available" while the stored
`vm_id` is still "12", and that is to be attached to VM 34. -/
def dataAttachStale : ResourceData :=
  { id := "42",
    old := { sampleAttrs with vm_id := some "12" },
    new := { sampleAttrs with vm_id := some "34" },
    cur := { sampleAttrs with vm_id := some "34" } }

/-- A server on which the first read and the first poll report the volume
"Available" and every later call fails. -/
def apiPollThenFail : Client := fun tr =>
  match tr with
  | [_] => .ok getResponseAvailable
  | [_, _] => .ok getResponseAvailable
  | _ => .error "attach failed"

/-! ## Theorems -/

/-- The plan loop of `validateSize` keeps its accumulator on well-formed plans
none of which offers the requested size. -/
theorem validateSizeLoop_no_match (rt : GoEnv) (want : ℚ) (plans : List Json) (acc : Bool)
    (hwf : ∀ val ∈ plans, ∃ plan bs_size,
      val = Json.obj plan ∧ plan.lookup "bs_size" = some (Json.num bs_size))
    (hno : ∀ plan bs_size, Json.obj plan ∈ plans →
      plan.lookup "bs_size" = some (Json.num bs_size) → rt.round (bs_size * 1000) ≠ want) :
    validateSizeLoop rt want plans acc = .ok acc := by
  induction plans generalizing acc with
  | nil => rfl
  | cons val rest ih =>
    obtain ⟨plan, bs_size, hval, hbs⟩ := hwf val (List.mem_cons_self _ _)
    subst hval
    have hne : rt.round (bs_size * 1000) ≠ want :=
      hno plan bs_size (List.mem_cons_self _ _) hbs
    have hrest := ih acc (fun v hv => hwf v (List.mem_cons_of_mem _ hv))
      (fun p q hp hq => hno p q (List.mem_cons_of_mem _ hp) hq)
    simp [validateSizeLoop, hbs, hne, hrest]

/-- C1: when every entry of the plans response is well-formed and no plan's
`bs_size` times 1000 equals the requested size, `validateSize` returns the
"not available in the plans" error and `resourceCreateBlockStorage` fails with
it, having issued only the plans call (no `NewBlockStorage`) and leaving the
resource data, its ID included, untouched. -/
theorem create_rejects_size_outside_plans (rt : GoEnv) (api : Client) (d : ResourceData)
    (tr : List Call) (resPlans : JMap) (availablePlans : List Json)
    (hresp : api (tr ++ [Call.GetBlockStoragePlans d.cur.project_id d.cur.location])
      = .ok resPlans)
    (hdata : resPlans.lookup "data" = some (Json.arr availablePlans))
    (hwf : ∀ val ∈ availablePlans, ∃ plan bs_size,
      val = Json.obj plan ∧ plan.lookup "bs_size" = some (Json.num bs_size))
    (hno : ∀ plan bs_size, Json.obj plan ∈ availablePlans →
      plan.lookup "bs_size" = some (Json.num bs_size) →
      rt.round (bs_size * 1000) ≠ d.cur.size) :
    validateSize rt api d tr
      = (some (some "BlockStorage Size not available in the plans"),
          tr ++ [Call.GetBlockStoragePlans d.cur.project_id d.cur.location]) ∧
    resourceCreateBlockStorage rt api d tr
      = ⟨.diags ["BlockStorage Size not available in the plans"], d,
          tr ++ [Call.GetBlockStoragePlans d.cur.project_id d.cur.location]⟩ ∧
    (∀ c ∈ (resourceCreateBlockStorage rt api d tr).trace,
      c ∈ tr ∨ c = Call.GetBlockStoragePlans d.cur.project_id d.cur.location) ∧
    (resourceCreateBlockStorage rt api d tr).d.id = d.id := by
  have hloop := validateSizeLoop_no_match rt d.cur.size availablePlans false hwf hno
  have hv : validateSize rt api d tr
      = (some (some "BlockStorage Size not available in the plans"),
          tr ++ [Call.GetBlockStoragePlans d.cur.project_id d.cur.location]) := by
    simp [validateSize, hresp, hdata, hloop]
  have hc : resourceCreateBlockStorage rt api d tr
      = ⟨.diags ["BlockStorage Size not available in the plans"], d,
          tr ++ [Call.GetBlockStoragePlans d.cur.project_id d.cur.location]⟩ := by
    simp [resourceCreateBlockStorage, hv]
  refine ⟨hv, hc, ?_, ?_⟩
  · intro c hc2
    rw [hc] at hc2
    simpa using hc2
  · rw [hc]

/-- Witness for C1: 1500 GB is requested, the plans offer 1 TB and 2 TB. -/
theorem create_rejects_size_outside_plans_witness :
    resourceCreateBlockStorage rtExact apiPlansOnly dataSize1500 []
      = ⟨.diags ["BlockStorage Size not available in the plans"], dataSize1500,
          [Call.GetBlockStoragePlans 7 "Delhi"]⟩ :=
  (create_rejects_size_outside_plans rtExact apiPlansOnly dataSize1500 [] samplePlans
    [.obj [("bs_size", .num 1)], .obj [("bs_size", .num 2)]] rfl rfl
    (by
      intro val hval
      simp at hval
      rcases hval with h | h
      · exact ⟨_, 1, h, rfl⟩
      · exact ⟨_, 2, h, rfl⟩)
    (by
      intro plan bs_size hmem hbs
      simp at hmem
      have hq : bs_size = 1 ∨ bs_size = 2 := by
        rcases hmem with h | h <;> subst h <;> simp [List.lookup] at hbs <;> simp [hbs]
      rcases hq with h | h <;> subst h <;> norm_num [rtExact, dataSize1500, sampleAttrs])).2.1

/-- C2: `resourceDeleteBlockStorage` with status "Creating" or "Saving"
returns an error, issues no call and leaves the resource data (its ID
included) unchanged; with status "Available" it issues exactly one call, the
DELETE, and when that call succeeds the run ends without diagnostics and the
ID is the empty string. -/
theorem delete_guard_and_clear (api : Client) (d : ResourceData) (tr : List Call) :
    ((d.cur.status = "Creating" ∨ d.cur.status = "Saving") →
      resourceDeleteBlockStorage api d tr
        = ⟨.diags ["Node in " ++ d.cur.status ++ " state"], d, tr⟩) ∧
    (d.cur.status = "Available" →
      (resourceDeleteBlockStorage api d tr).trace
        = tr ++ [Call.DeleteBlockStorage d.id d.cur.project_id d.cur.location] ∧
      ∀ body, api (tr ++ [Call.DeleteBlockStorage d.id d.cur.project_id d.cur.location])
          = .ok body →
        resourceDeleteBlockStorage api d tr
          = ⟨.diags [], { d with id := "" },
              tr ++ [Call.DeleteBlockStorage d.id d.cur.project_id d.cur.location]⟩) := by
  constructor
  · intro h
    have h2 : d.cur.status = "Saving" ∨ d.cur.status = "Creating" := h.symm
    simp [resourceDeleteBlockStorage, h2]
  · intro h
    have h2 : ¬ (d.cur.status = "Saving" ∨ d.cur.status = "Creating") := by
      rw [h]; decide
    constructor
    · simp only [resourceDeleteBlockStorage, if_neg h2]
      cases api (tr ++ [Call.DeleteBlockStorage d.id d.cur.project_id d.cur.location]) <;> rfl
    · intro body hbody
      simp only [resourceDeleteBlockStorage, if_neg h2, hbody]

/-- Witness for C2: a volume in state "Saving" is not deleted, an available
one is. -/
theorem delete_guard_and_clear_witness :
    resourceDeleteBlockStorage apiEmptyOk dataSaving []
      = ⟨.diags ["Node in Saving state"], dataSaving, []⟩ ∧
    resourceDeleteBlockStorage apiEmptyOk sampleData []
      = ⟨.diags [], { sampleData with id := "" }, [Call.DeleteBlockStorage "42" 7 "Delhi"]⟩ :=
  ⟨(delete_guard_and_clear apiEmptyOk dataSaving []).1 (Or.inr rfl),
   ((delete_guard_and_clear apiEmptyOk sampleData []).2 rfl).2 [] rfl⟩

/-- The location branch of `resourceUpdateBlockStorage`, taken as soon as the
opening GET has succeeded and the location has changed. -/
theorem update_location_branch (fuel : Nat) (rt : GoEnv) (api : Client)
    (d : ResourceData) (tr : List Call) (blockStorage : JMap)
    (hget : api (tr ++ [Call.GetBlockStorage d.id d.cur.project_id d.cur.location])
      = .ok blockStorage)
    (hchange : d.old.location ≠ d.new.location) :
    resourceUpdateBlockStorage fuel rt api d tr
      = ⟨.diags ["Location cannot be changed once the block storage is created"],
          { d with cur := { d.cur with location := d.old.location } },
          tr ++ [Call.GetBlockStorage d.id d.cur.project_id d.cur.location]⟩ := by
  have hfmt : Errorf rt "Location cannot be changed once the block storage is created"
      = "Location cannot be changed once the block storage is created" := by
    simp [Errorf]
  simp [resourceUpdateBlockStorage, hget, hchange, hfmt]

/-- Amended C3: when the GET that opens the update succeeds and the location
has changed, the update fails with the location error, writes the previous
location back and issues no further call, whatever else changed and whatever
the body of the GET response. -/
theorem update_location_change_rejected (fuel : Nat) (rt : GoEnv) (api : Client)
    (d : ResourceData) (tr : List Call) (blockStorage : JMap)
    (hget : api (tr ++ [Call.GetBlockStorage d.id d.cur.project_id d.cur.location])
      = .ok blockStorage)
    (hchange : d.old.location ≠ d.new.location) :
    resourceUpdateBlockStorage fuel rt api d tr
      = ⟨.diags ["Location cannot be changed once the block storage is created"],
          { d with cur := { d.cur with location := d.old.location } },
          tr ++ [Call.GetBlockStorage d.id d.cur.project_id d.cur.location]⟩ :=
  update_location_branch fuel rt api d tr blockStorage hget hchange

/-- Witness for amended C3: the location goes from Delhi to Mumbai. -/
theorem update_location_change_rejected_witness :
    (resourceUpdateBlockStorage 0 rtExact apiEmptyOk dataLocationChanged []).result
      = .diags ["Location cannot be changed once the block storage is created"] ∧
    (resourceUpdateBlockStorage 0 rtExact apiEmptyOk dataLocationChanged []).d.cur.location
      = "Delhi" := by
  have h := update_location_change_rejected 0 rtExact apiEmptyOk dataLocationChanged [] []
    rfl (by decide)
  rw [h]
  exact ⟨rfl, rfl⟩

/-- Counterexample to C3: the location has changed and the GET answers
"not found"; the update returns no diagnostics and the location keeps the new
value. -/
theorem update_location_change_not_found :
    dataLocationChanged.old.location = "Delhi" ∧
    dataLocationChanged.new.location = "Mumbai" ∧
    resourceUpdateBlockStorage 0 rtExact apiNotFound dataLocationChanged []
      = ⟨.diags [], { dataLocationChanged with id := "" },
          [Call.GetBlockStorage "42" 7 "Mumbai"]⟩ ∧
    (resourceUpdateBlockStorage 0 rtExact apiNotFound dataLocationChanged []).d.cur.location
      = "Mumbai" := by
  have hc : Contains "block storage not found" "not found" = true := by decide
  have h : resourceUpdateBlockStorage 0 rtExact apiNotFound dataLocationChanged []
      = ⟨.diags [], { dataLocationChanged with id := "" },
          [Call.GetBlockStorage "42" 7 "Mumbai"]⟩ := by
    simp [resourceUpdateBlockStorage, apiNotFound, hc]
    exact ⟨rfl, rfl, rfl⟩
  refine ⟨rfl, rfl, h, ?_⟩
  rw [h]
  rfl

/-- C4: when the GET of `resourceReadBlockStorage` fails with an error whose
text contains "not found", the read returns no diagnostics and the resource
data is the one it started from with the ID set to the empty string. -/
theorem read_not_found_clears_id (rt : GoEnv) (api : Client) (d : ResourceData)
    (tr : List Call) (err : String)
    (hget : api (tr ++ [Call.GetBlockStorage d.id d.cur.project_id d.cur.location])
      = .error err)
    (hnf : Contains err "not found" = true) :
    resourceReadBlockStorage rt api d tr
      = ⟨.diags [], { d with id := "" },
          tr ++ [Call.GetBlockStorage d.id d.cur.project_id d.cur.location]⟩ := by
  simp [resourceReadBlockStorage, hget, hnf]

/-- Witness for C4: the server answers "block storage not found". -/
theorem read_not_found_clears_id_witness :
    resourceReadBlockStorage rtExact apiNotFound sampleData []
      = ⟨.diags [], { sampleData with id := "" }, [Call.GetBlockStorage "42" 7 "Delhi"]⟩ :=
  read_not_found_clears_id rtExact apiNotFound sampleData [] "block storage not found"
    rfl (by decide)

/-- The read panics, having written nothing, whenever the GET succeeds with a
`data` object that has a `template` object but no `vm_detail` key. -/
theorem read_panics_when_vm_detail_absent (rt : GoEnv) (api : Client) (d : ResourceData)
    (tr : List Call) (blockStorage data template : JMap)
    (hget : api (tr ++ [Call.GetBlockStorage d.id d.cur.project_id d.cur.location])
      = .ok blockStorage)
    (hdata : blockStorage.lookup "data" = some (Json.obj data))
    (htemplate : data.lookup "template" = some (Json.obj template))
    (hvm : data.lookup "vm_detail" = none) :
    resourceReadBlockStorage rt api d tr
      = ⟨.panic, d, tr ++ [Call.GetBlockStorage d.id d.cur.project_id d.cur.location]⟩ := by
  simp only [resourceReadBlockStorage, hget, hdata, htemplate, hvm]

/-- The read of a well-typed response whose `vm_detail` object carries a
numeric `vm_id` and a string `vm_name` stores the decimal string of the id and
the name. -/
theorem read_sets_vm_fields (rt : GoEnv) (api : Client) (d : ResourceData)
    (tr : List Call) (blockStorage data template vm_detail : JMap)
    (name status iops vm_name : String) (vm_id : ℚ)
    (hget : api (tr ++ [Call.GetBlockStorage d.id d.cur.project_id d.cur.location])
      = .ok blockStorage)
    (hdata : blockStorage.lookup "data" = some (Json.obj data))
    (htemplate : data.lookup "template" = some (Json.obj template))
    (hvm : data.lookup "vm_detail" = some (Json.obj vm_detail))
    (hname : data.lookup "name" = some (Json.str name))
    (hstatus : data.lookup "status" = some (Json.str status))
    (hiops : template.lookup "TOTAL_IOPS_SEC" = some (Json.str iops))
    (hid : vm_detail.lookup "vm_id" = some (Json.num vm_id))
    (hvmname : vm_detail.lookup "vm_name" = some (Json.str vm_name)) :
    resourceReadBlockStorage rt api d tr
      = ⟨.diags [],
          { d with
            cur :=
              { d.cur with
                name := name, status := status, iops := iops,
                vm_id := some (Itoa (toInt rt vm_id)), vm_name := some vm_name } },
          tr ++ [Call.GetBlockStorage d.id d.cur.project_id d.cur.location]⟩ := by
  simp only [resourceReadBlockStorage, hget, hdata, htemplate, hvm, hname, hstatus, hiops,
    hid, hvmname]

/-- The read of a well-typed response whose `vm_detail` object has no `vm_id`
key clears `vm_id` and `vm_name`. -/
theorem read_clears_vm_fields (rt : GoEnv) (api : Client) (d : ResourceData)
    (tr : List Call) (blockStorage data template vm_detail : JMap)
    (name status iops : String)
    (hget : api (tr ++ [Call.GetBlockStorage d.id d.cur.project_id d.cur.location])
      = .ok blockStorage)
    (hdata : blockStorage.lookup "data" = some (Json.obj data))
    (htemplate : data.lookup "template" = some (Json.obj template))
    (hvm : data.lookup "vm_detail" = some (Json.obj vm_detail))
    (hname : data.lookup "name" = some (Json.str name))
    (hstatus : data.lookup "status" = some (Json.str status))
    (hiops : template.lookup "TOTAL_IOPS_SEC" = some (Json.str iops))
    (hid : vm_detail.lookup "vm_id" = none) :
    resourceReadBlockStorage rt api d tr
      = ⟨.diags [],
          { d with
            cur :=
              { d.cur with
                name := name, status := status, iops := iops,
                vm_id := none, vm_name := none } },
          tr ++ [Call.GetBlockStorage d.id d.cur.project_id d.cur.location]⟩ := by
  simp only [resourceReadBlockStorage, hget, hdata, htemplate, hvm, hname, hstatus, hiops,
    hid]

/-- C5, the code at the failing input: the GET succeeds with well-typed name,
status and template but no `vm_detail`; the read panics on the assertion of
`vm_detail` before any attribute is written. -/
theorem read_without_vm_detail_panics :
    (List.lookup "data" getResponseNoVmDetail).isSome = true ∧
    resourceReadBlockStorage rtExact apiGetNoVmDetail sampleData []
      = ⟨.panic, sampleData, [Call.GetBlockStorage "42" 7 "Delhi"]⟩ := by
  refine ⟨rfl, ?_⟩
  simp [resourceReadBlockStorage, apiGetNoVmDetail, getResponseNoVmDetail, List.lookup]
  exact ⟨rfl, rfl, rfl⟩

/-- C6, the code at the failing input: the volume is attached to VM 12 and is
to move to VM 34; the detach succeeds, the only poll of `waitForDetach` fails
with a transport error, and the attach to VM 34 is issued all the same: no
read has reported "Available" between the detach and the attach. -/
theorem update_attaches_after_failed_poll :
    apiPollFails [Call.GetBlockStorage "42" 7 "Delhi",
        Call.AttachOrDetachBlockStorage 12 "detach" "42" 7 "Delhi",
        Call.GetBlockStorage "42" 7 "Delhi"] = .error "gateway timeout" ∧
    (resourceUpdateBlockStorage 5 rtExact apiPollFails dataMoveVm []).trace
      = [Call.GetBlockStorage "42" 7 "Delhi",
          Call.AttachOrDetachBlockStorage 12 "detach" "42" 7 "Delhi",
          Call.GetBlockStorage "42" 7 "Delhi",
          Call.AttachOrDetachBlockStorage 34 "attach" "42" 7 "Delhi"] ∧
    (resourceUpdateBlockStorage 5 rtExact apiPollFails dataMoveVm []).result = .diags [] := by
  have h12 : Atoi rtExact "12" = .ok 12 := by rfl
  have h34 : Atoi rtExact "34" = .ok 34 := by rfl
  refine ⟨rfl, ?_, ?_⟩ <;>
    simp [resourceUpdateBlockStorage, updateWaitAndAttach, waitForDetach, apiPollFails,
      dataMoveVm, sampleAttrs, strOf, h12, h34, List.lookup]

/-- Once a plan has matched, the plan loop of `validateSize` answers true on
well-formed plans. -/
theorem validateSizeLoop_true (rt : GoEnv) (want : ℚ) (plans : List Json)
    (hwf : ∀ val ∈ plans, ∃ plan bs_size,
      val = Json.obj plan ∧ plan.lookup "bs_size" = some (Json.num bs_size)) :
    validateSizeLoop rt want plans true = .ok true := by
  induction plans with
  | nil => rfl
  | cons val rest ih =>
    obtain ⟨plan, bs_size, hval, hbs⟩ := hwf val (List.mem_cons_self _ _)
    subst hval
    have hrest := ih (fun v hv => hwf v (List.mem_cons_of_mem _ hv))
    simp [validateSizeLoop, hbs, hrest]

/-- The plan loop of `validateSize` answers true on well-formed plans one of
which offers the requested size. -/
theorem validateSizeLoop_match (rt : GoEnv) (want : ℚ) (plans : List Json) (acc : Bool)
    (hwf : ∀ val ∈ plans, ∃ plan bs_size,
      val = Json.obj plan ∧ plan.lookup "bs_size" = some (Json.num bs_size))
    (hyes : ∃ plan bs_size, Json.obj plan ∈ plans ∧
      plan.lookup "bs_size" = some (Json.num bs_size) ∧ rt.round (bs_size * 1000) = want) :
    validateSizeLoop rt want plans acc = .ok true := by
  induction plans generalizing acc with
  | nil =>
    obtain ⟨_, _, hmem, _⟩ := hyes
    simp at hmem
  | cons val rest ih =>
    obtain ⟨plan, bs_size, hval, hbs⟩ := hwf val (List.mem_cons_self _ _)
    subst hval
    have hwfr : ∀ v ∈ rest, ∃ plan bs_size,
        v = Json.obj plan ∧ plan.lookup "bs_size" = some (Json.num bs_size) :=
      fun v hv => hwf v (List.mem_cons_of_mem _ hv)
    by_cases hhead : rt.round (bs_size * 1000) = want
    · simp [validateSizeLoop, hbs, hhead, validateSizeLoop_true rt want rest hwfr]
    · obtain ⟨p, q, hmem, hq, hround⟩ := hyes
      have hin : Json.obj p ∈ rest := by
        rcases List.mem_cons.mp hmem with h | h
        · exfalso
          injection h with hpp
          subst hpp
          rw [hbs] at hq
          injection hq with hq2
          injection hq2 with hq3
          subst hq3
          exact hhead hround
        · exact h
      have hrest := ih acc hwfr ⟨p, q, hin, hq, hround⟩
      simp [validateSizeLoop, hbs, hhead, hrest]

/-- The function `validateSize` returns nil, having issued the plans call
alone, when the plans are well-formed and one of them offers the size read
from the resource data. -/
theorem validateSize_accepts (rt : GoEnv) (api : Client) (d : ResourceData) (tr : List Call)
    (resPlans : JMap) (availablePlans : List Json)
    (hresp : api (tr ++ [Call.GetBlockStoragePlans d.cur.project_id d.cur.location])
      = .ok resPlans)
    (hdata : resPlans.lookup "data" = some (Json.arr availablePlans))
    (hwf : ∀ val ∈ availablePlans, ∃ plan bs_size,
      val = Json.obj plan ∧ plan.lookup "bs_size" = some (Json.num bs_size))
    (hyes : ∃ plan bs_size, Json.obj plan ∈ availablePlans ∧
      plan.lookup "bs_size" = some (Json.num bs_size) ∧
      rt.round (bs_size * 1000) = d.cur.size) :
    validateSize rt api d tr
      = (some none, tr ++ [Call.GetBlockStoragePlans d.cur.project_id d.cur.location]) := by
  have hloop := validateSizeLoop_match rt d.cur.size availablePlans false hwf hyes
  simp [validateSize, hresp, hdata, hloop]

/-- The sample plans are well-formed. -/
theorem samplePlans_wellFormed :
    ∀ val ∈ [Json.obj [("bs_size", .num 1)], Json.obj [("bs_size", .num 2)]],
      ∃ plan bs_size, val = Json.obj plan ∧ plan.lookup "bs_size" = some (Json.num bs_size) := by
  intro val hval
  simp at hval
  rcases hval with h | h
  · exact ⟨_, 1, h, rfl⟩
  · exact ⟨_, 2, h, rfl⟩

/-- Amended C7: when the update reaches the size/name category (the opening
GET succeeds, location, project_id and vm_id are unchanged, the size read from
the resource data is offered by a well-formed plans response), the size has
changed and the status is not "Attached", the update fails with the
"cannot upgrade unless attached" error, has issued the GET and the plans call
only (no upgrade call), and has written the previous name and size back. -/
theorem update_size_change_unattached_rejected (fuel : Nat) (rt : GoEnv) (api : Client)
    (d : ResourceData) (tr : List Call) (blockStorage resPlans : JMap)
    (availablePlans : List Json)
    (hget : api (tr ++ [Call.GetBlockStorage d.id d.cur.project_id d.cur.location])
      = .ok blockStorage)
    (hloc : d.old.location = d.new.location)
    (hproj : d.old.project_id = d.new.project_id)
    (hvm : strOf d.old.vm_id = strOf d.new.vm_id)
    (hsize : d.old.size ≠ d.new.size)
    (hresp : api (tr ++ [Call.GetBlockStorage d.id d.cur.project_id d.cur.location]
        ++ [Call.GetBlockStoragePlans d.cur.project_id d.cur.location]) = .ok resPlans)
    (hdata : resPlans.lookup "data" = some (Json.arr availablePlans))
    (hwf : ∀ val ∈ availablePlans, ∃ plan bs_size,
      val = Json.obj plan ∧ plan.lookup "bs_size" = some (Json.num bs_size))
    (hyes : ∃ plan bs_size, Json.obj plan ∈ availablePlans ∧
      plan.lookup "bs_size" = some (Json.num bs_size) ∧
      rt.round (bs_size * 1000) = d.cur.size)
    (hst : d.cur.status ≠ "Attached") :
    resourceUpdateBlockStorage fuel rt api d tr
      = ⟨.diags
          ["You cannot upgrade a block storage name or size unless it is attached to a node"],
          { d with cur := { d.cur with size := d.old.size, name := d.old.name } },
          tr ++ [Call.GetBlockStorage d.id d.cur.project_id d.cur.location]
            ++ [Call.GetBlockStoragePlans d.cur.project_id d.cur.location]⟩ := by
  have hv := validateSize_accepts rt api d
    (tr ++ [Call.GetBlockStorage d.id d.cur.project_id d.cur.location])
    resPlans availablePlans hresp hdata hwf hyes
  have hfmt : Errorf rt
      "You cannot upgrade a block storage name or size unless it is attached to a node"
      = "You cannot upgrade a block storage name or size unless it is attached to a node" := by
    simp [Errorf]
  simp only [resourceUpdateBlockStorage, hget, hloc, hproj, hvm, ne_eq, not_true_eq_false,
    if_false, updateSizeOrName, hsize, not_false_eq_true, true_or, if_true, hv, hst, hfmt]

/-- Witness for amended C7: a detached volume is to grow from 1000 GB to
2000 GB, which the plans offer. -/
theorem update_size_change_unattached_rejected_witness :
    resourceUpdateBlockStorage 0 rtExact apiGetThenPlans dataGrowDetached []
      = ⟨.diags
          ["You cannot upgrade a block storage name or size unless it is attached to a node"],
          { dataGrowDetached with cur := sampleAttrs },
          [Call.GetBlockStorage "42" 7 "Delhi", Call.GetBlockStoragePlans 7 "Delhi"]⟩ :=
  update_size_change_unattached_rejected 0 rtExact apiGetThenPlans dataGrowDetached []
    [] samplePlans [.obj [("bs_size", .num 1)], .obj [("bs_size", .num 2)]]
    rfl rfl rfl rfl (by norm_num [dataGrowDetached, sampleData, sampleAttrs]) rfl rfl
    samplePlans_wellFormed
    ⟨[("bs_size", .num 2)], 2, by simp, rfl,
      by norm_num [rtExact, dataGrowDetached, sampleAttrs]⟩
    (by decide)

/-- Counterexample to C7: size and location have both changed and the status
is "Available"; the update fails with the location error, not with the
"cannot upgrade unless attached" error, and the size keeps the new value. -/
theorem update_size_and_location_change :
    dataSizeAndLocationChanged.old.size = 1000 ∧
    dataSizeAndLocationChanged.new.size = 2000 ∧
    dataSizeAndLocationChanged.cur.status = "Available" ∧
    (resourceUpdateBlockStorage 0 rtExact apiEmptyOk dataSizeAndLocationChanged []).result
      = .diags ["Location cannot be changed once the block storage is created"] ∧
    (resourceUpdateBlockStorage 0 rtExact apiEmptyOk dataSizeAndLocationChanged []).d.cur.size
      = 2000 := by
  have h := update_location_branch 0 rtExact apiEmptyOk dataSizeAndLocationChanged
    [] [] rfl (by decide)
  rw [h]
  exact ⟨rfl, rfl, rfl, rfl, rfl⟩

/-- An update that reaches the size/name category (the opening GET succeeds,
location, project_id and vm_id are unchanged, size or name has changed, the
size read from the resource data is offered by a well-formed plans response)
with status "Attached" and a new size that does not exceed the old size plus
1e-6 fails with the "unless you are upgrading it" error, has issued the GET
and the plans call only, and has written the previous name and size back,
whatever the body of the opening GET. -/
theorem update_attached_rejects_without_growth (fuel : Nat) (rt : GoEnv) (api : Client)
    (d : ResourceData) (tr : List Call) (blockStorage resPlans : JMap)
    (availablePlans : List Json)
    (hget : api (tr ++ [Call.GetBlockStorage d.id d.cur.project_id d.cur.location])
      = .ok blockStorage)
    (hloc : d.old.location = d.new.location)
    (hproj : d.old.project_id = d.new.project_id)
    (hvm : strOf d.old.vm_id = strOf d.new.vm_id)
    (hchg : d.old.size ≠ d.new.size ∨ d.old.name ≠ d.new.name)
    (hresp : api (tr ++ [Call.GetBlockStorage d.id d.cur.project_id d.cur.location]
        ++ [Call.GetBlockStoragePlans d.cur.project_id d.cur.location]) = .ok resPlans)
    (hdata : resPlans.lookup "data" = some (Json.arr availablePlans))
    (hwf : ∀ val ∈ availablePlans, ∃ plan bs_size,
      val = Json.obj plan ∧ plan.lookup "bs_size" = some (Json.num bs_size))
    (hyes : ∃ plan bs_size, Json.obj plan ∈ availablePlans ∧
      plan.lookup "bs_size" = some (Json.num bs_size) ∧
      rt.round (bs_size * 1000) = d.cur.size)
    (hst : d.cur.status = "Attached")
    (hle : d.new.size ≤ rt.round (d.old.size + rt.round (1 / 1000000))) :
    resourceUpdateBlockStorage fuel rt api d tr
      = ⟨.diags
          ["You cannot change the block storage size and name unless you are upgrading it"],
          { d with cur := { d.cur with size := d.old.size, name := d.old.name } },
          tr ++ [Call.GetBlockStorage d.id d.cur.project_id d.cur.location]
            ++ [Call.GetBlockStoragePlans d.cur.project_id d.cur.location]⟩ := by
  have hv := validateSize_accepts rt api d
    (tr ++ [Call.GetBlockStorage d.id d.cur.project_id d.cur.location])
    resPlans availablePlans hresp hdata hwf hyes
  have hfmt : Errorf rt
      "You cannot change the block storage size and name unless you are upgrading it"
      = "You cannot change the block storage size and name unless you are upgrading it" := by
    simp [Errorf]
  have hgrow : ¬ d.new.size > rt.round (d.old.size + rt.round (1 / 1000000)) :=
    not_lt.mpr hle
  simp only [resourceUpdateBlockStorage, hget, hloc, hproj, hvm, ne_eq, not_true_eq_false,
    if_false, updateSizeOrName, hchg, if_true, hv, hst, hgrow, hfmt]

/-- An update that reaches the size/name category with status "Attached", a
new size that exceeds the old size plus 1e-6 and an opening GET whose body
carries a numeric `data.vm_detail.vm_id` issues, after the GET and the plans
call, one upgrade call carrying the new name, the new size and that VM id. -/
theorem update_attached_upgrades_on_growth (fuel : Nat) (rt : GoEnv) (api : Client)
    (d : ResourceData) (tr : List Call) (blockStorage resPlans : JMap)
    (availablePlans : List Json) (data vm_detail : JMap) (vmID : ℚ)
    (hget : api (tr ++ [Call.GetBlockStorage d.id d.cur.project_id d.cur.location])
      = .ok blockStorage)
    (hloc : d.old.location = d.new.location)
    (hproj : d.old.project_id = d.new.project_id)
    (hvm : strOf d.old.vm_id = strOf d.new.vm_id)
    (hchg : d.old.size ≠ d.new.size ∨ d.old.name ≠ d.new.name)
    (hresp : api (tr ++ [Call.GetBlockStorage d.id d.cur.project_id d.cur.location]
        ++ [Call.GetBlockStoragePlans d.cur.project_id d.cur.location]) = .ok resPlans)
    (hdata : resPlans.lookup "data" = some (Json.arr availablePlans))
    (hwf : ∀ val ∈ availablePlans, ∃ plan bs_size,
      val = Json.obj plan ∧ plan.lookup "bs_size" = some (Json.num bs_size))
    (hyes : ∃ plan bs_size, Json.obj plan ∈ availablePlans ∧
      plan.lookup "bs_size" = some (Json.num bs_size) ∧
      rt.round (bs_size * 1000) = d.cur.size)
    (hst : d.cur.status = "Attached")
    (hbody : blockStorage.lookup "data" = some (Json.obj data))
    (hdetail : data.lookup "vm_detail" = some (Json.obj vm_detail))
    (hvmid : vm_detail.lookup "vm_id" = some (Json.num vmID))
    (hgrow : d.new.size > rt.round (d.old.size + rt.round (1 / 1000000))) :
    (resourceUpdateBlockStorage fuel rt api d tr).trace
      = tr ++ [Call.GetBlockStorage d.id d.cur.project_id d.cur.location]
          ++ [Call.GetBlockStoragePlans d.cur.project_id d.cur.location]
          ++ [Call.UpdateBlockStorage d.new.name d.new.size vmID d.id d.cur.project_id
                d.cur.location] := by
  have hv := validateSize_accepts rt api d
    (tr ++ [Call.GetBlockStorage d.id d.cur.project_id d.cur.location])
    resPlans availablePlans hresp hdata hwf hyes
  have hrun : resourceUpdateBlockStorage fuel rt api d tr
      = updateSizeOrName rt api blockStorage d.id d.cur.project_id d.cur.location d
          (tr ++ [Call.GetBlockStorage d.id d.cur.project_id d.cur.location]) := by
    simp only [resourceUpdateBlockStorage, hget, hloc, hproj, hvm, ne_eq, not_true_eq_false,
      if_false]
  rw [hrun]
  simp only [updateSizeOrName, ne_eq, hchg, if_true, hv, hst, hgrow, hbody, hdetail, hvmid]
  cases hup : api (tr ++ [Call.GetBlockStorage d.id d.cur.project_id d.cur.location]
      ++ [Call.GetBlockStoragePlans d.cur.project_id d.cur.location]
      ++ [Call.UpdateBlockStorage d.new.name d.new.size vmID d.id d.cur.project_id
        d.cur.location]) with
  | error err => rfl
  | ok resBlockStorage =>
    simp only []
    cases resBlockStorage.lookup "code" with
    | some v => rfl
    | none =>
      simp only []
      split <;> rfl

/-- An attached volume grows from 1000 GB to 2000 GB and the opening GET
reports VM 12: the upgrade call is issued. -/
theorem update_attached_growth_with_vm_id :
    (resourceUpdateBlockStorage 0 rtExact apiAttachedThenPlans dataGrowAttached []).trace
      = [Call.GetBlockStorage "42" 7 "Delhi", Call.GetBlockStoragePlans 7 "Delhi",
          Call.UpdateBlockStorage "bs1" 2000 12 "42" 7 "Delhi"] :=
  update_attached_upgrades_on_growth 0 rtExact apiAttachedThenPlans
    dataGrowAttached [] getResponseAttached samplePlans
    [.obj [("bs_size", .num 1)], .obj [("bs_size", .num 2)]]
    [("name", .str "bs1"), ("status", .str "Attached"),
      ("template", .obj [("TOTAL_IOPS_SEC", .str "15000")]),
      ("vm_detail", .obj [("vm_id", .num 12), ("vm_name", .str "n12")])]
    [("vm_id", .num 12), ("vm_name", .str "n12")] 12
    rfl rfl rfl rfl
    (Or.inl (by norm_num [dataGrowAttached, attachedAttrs, sampleAttrs])) rfl rfl
    samplePlans_wellFormed
    ⟨[("bs_size", .num 2)], 2, by simp, rfl,
      by norm_num [rtExact, dataGrowAttached, attachedAttrs, sampleAttrs]⟩
    rfl rfl rfl rfl
    (by norm_num [rtExact, dataGrowAttached, attachedAttrs, sampleAttrs])

/-- C8, the code at the failing input: an attached volume is to grow from
1000 GB to 2000 GB, which the plans offer, and the opening GET reports an
empty `vm_detail`; the new size exceeds the old size plus 1e-6, yet the update
panics on the assertion of the VM id after the plans call and issues no
upgrade call. -/
theorem update_attached_growth_without_vm_id :
    dataGrowAttached.cur.status = "Attached" ∧
    dataGrowAttached.new.size
      > rtExact.round (dataGrowAttached.old.size + rtExact.round (1 / 1000000)) ∧
    resourceUpdateBlockStorage 0 rtExact apiDetachedRemotely dataGrowAttached []
      = ⟨.panic, dataGrowAttached,
          [Call.GetBlockStorage "42" 7 "Delhi", Call.GetBlockStoragePlans 7 "Delhi"]⟩ := by
  refine ⟨rfl, by norm_num [rtExact, dataGrowAttached, attachedAttrs, sampleAttrs], ?_⟩
  have hv := validateSize_accepts rtExact apiDetachedRemotely dataGrowAttached
    [Call.GetBlockStorage "42" 7 "Delhi"] samplePlans
    [.obj [("bs_size", .num 1)], .obj [("bs_size", .num 2)]] rfl rfl samplePlans_wellFormed
    ⟨[("bs_size", .num 2)], 2, by simp, rfl,
      by norm_num [rtExact, dataGrowAttached, attachedAttrs, sampleAttrs]⟩
  have hgrow : dataGrowAttached.new.size
      > rtExact.round (dataGrowAttached.old.size + rtExact.round (1 / 1000000)) := by
    norm_num [rtExact, dataGrowAttached, attachedAttrs, sampleAttrs]
  have hget : apiDetachedRemotely
      ([] ++ [Call.GetBlockStorage dataGrowAttached.id dataGrowAttached.cur.project_id
        dataGrowAttached.cur.location]) = .ok getResponseEmptyVmDetail := rfl
  have hloc : dataGrowAttached.old.location = dataGrowAttached.new.location := rfl
  have hproj : dataGrowAttached.old.project_id = dataGrowAttached.new.project_id := rfl
  have hvm : strOf dataGrowAttached.old.vm_id = strOf dataGrowAttached.new.vm_id := rfl
  have hchg : dataGrowAttached.old.size ≠ dataGrowAttached.new.size := by
    norm_num [dataGrowAttached, attachedAttrs, sampleAttrs]
  have hst : dataGrowAttached.cur.status = "Attached" := rfl
  have hbody : List.lookup "data" getResponseEmptyVmDetail
      = some (Json.obj [("name", .str "bs1"), ("status", .str "Available"),
          ("template", .obj [("TOTAL_IOPS_SEC", .str "15000")]),
          ("vm_detail", .obj [])]) := rfl
  have hdetail : List.lookup "vm_detail" [("name", Json.str "bs1"),
      ("status", Json.str "Available"),
      ("template", Json.obj [("TOTAL_IOPS_SEC", .str "15000")]),
      ("vm_detail", Json.obj [])] = some (Json.obj []) := rfl
  have hid : dataGrowAttached.id = "42" := rfl
  have hpid : dataGrowAttached.cur.project_id = 7 := rfl
  have hl : dataGrowAttached.cur.location = "Delhi" := rfl
  simp only [hid, hpid, hl] at hv hget
  simp only [resourceUpdateBlockStorage, hid, hpid, hl, hget, hloc, hproj, hvm, ne_eq,
    not_true_eq_false, if_false, updateSizeOrName, hchg, not_false_eq_true, true_or, if_true,
    List.nil_append, hv, hst, hgrow, hbody, hdetail]
  rfl

/-- A create that ends without diagnostics has stored the locally computed
IOPS. -/
theorem create_success_stores_iops (rt : GoEnv) (api : Client) (d : ResourceData)
    (tr : List Call) (h : (resourceCreateBlockStorage rt api d tr).result = .diags []) :
    (resourceCreateBlockStorage rt api d tr).d.cur.iops = calculateIOPS rt d.cur.size := by
  revert h
  unfold resourceCreateBlockStorage
  split
  · simp
  · simp
  · dsimp only
    split
    · simp
    · split
      · split <;> simp
      · split
        · split
          · split <;> simp
          · split <;> simp
        · simp

/-- Counterexample to C9: for the size -0.5 the product with 15 is -7.5;
`calculateIOPS` truncates it toward zero to "-7", while the decimal string of
its floor is "-8". -/
theorem calculateIOPS_negative_size_truncates :
    calculateIOPS rtExact (-1 / 2) = "-7" ∧
    Itoa ⌊rtExact.round ((-1 / 2 : ℚ) * 15)⌋ = "-8" := by
  have hc : ⌈(-1 / 2 : ℚ) * 15⌉ = -7 := by
    rw [Int.ceil_eq_iff]; norm_num
  have hf : ⌊(-1 / 2 : ℚ) * 15⌋ = -8 := by
    rw [Int.floor_eq_iff]; norm_num
  have hneg : ¬ (0 : ℚ) ≤ -1 / 2 * 15 := by norm_num
  have ht : toInt rtExact (rtExact.round ((-1 / 2 : ℚ) * 15)) = -7 := by
    simp only [toInt, truncate, rtExact, id, if_neg hneg, hc]
    decide
  constructor
  · simp only [calculateIOPS, ht]
    decide
  · simp only [rtExact, id, hf]
    decide

/-- Amended C9: whenever the product `size × 15`, as computed in `float64`,
is non-negative and below 2^63, `calculateIOPS size` is the decimal string of
its floor (in general the product is truncated toward zero); for size 10 it is
"150"; and a create that ends without diagnostics has stored exactly the
string `calculateIOPS size` as the `iops` attribute. -/
theorem calculateIOPS_floor_of_nonneg (rt : GoEnv) :
    (∀ size : ℚ, 0 ≤ rt.round (size * 15) → rt.round (size * 15) < 2 ^ 63 →
      calculateIOPS rt size = Itoa ⌊rt.round (size * 15)⌋) ∧
    (∀ size : ℚ, -(2 ^ 63 : Int) ≤ truncate (rt.round (size * 15)) →
      truncate (rt.round (size * 15)) < (2 ^ 63 : Int) →
      calculateIOPS rt size = Itoa (truncate (rt.round (size * 15)))) ∧
    calculateIOPS rtExact 10 = "150" ∧
    (∀ (api : Client) (d : ResourceData) (tr : List Call),
      (resourceCreateBlockStorage rt api d tr).result = .diags [] →
      (resourceCreateBlockStorage rt api d tr).d.cur.iops = calculateIOPS rt d.cur.size) := by
  refine ⟨?_, ?_, ?_, fun api d tr h => create_success_stores_iops rt api d tr h⟩
  · intro size h0 hlt
    have hfl0 : (0 : Int) ≤ ⌊rt.round (size * 15)⌋ := Int.floor_nonneg.mpr h0
    have hfllt : ⌊rt.round (size * 15)⌋ < (2 ^ 63 : Int) := by
      rw [Int.floor_lt]
      exact_mod_cast hlt
    have hlo : -(2 ^ 63 : Int) ≤ ⌊rt.round (size * 15)⌋ := by
      have : -(2 ^ 63 : Int) ≤ 0 := by norm_num
      exact le_trans this hfl0
    simp only [calculateIOPS, toInt, truncate, if_pos h0, hlo, hfllt, and_self, if_true]
  · intro size hlo hhi
    simp only [calculateIOPS, toInt, hlo, hhi, and_self, if_true]
  · have hf : ⌊(10 : ℚ) * 15⌋ = 150 := by
      rw [Int.floor_eq_iff]; norm_num
    have h0 : (0 : ℚ) ≤ 10 * 15 := by norm_num
    have ht : toInt rtExact (rtExact.round ((10 : ℚ) * 15)) = 150 := by
      simp only [toInt, truncate, rtExact, id, if_pos h0, hf]
      decide
    simp only [calculateIOPS, ht]
    decide

/-- Witness for amended C9: the size 10, and a create of a 1000 GB volume that
the server accepts. -/
theorem calculateIOPS_floor_of_nonneg_witness :
    calculateIOPS rtExact 10 = Itoa ⌊rtExact.round ((10 : ℚ) * 15)⌋ ∧
    (resourceCreateBlockStorage rtExact apiCreateOk sampleData []).d.cur.iops
      = calculateIOPS rtExact sampleData.cur.size :=
  ⟨(calculateIOPS_floor_of_nonneg rtExact).1 10
      (by norm_num [rtExact]) (by norm_num [rtExact]),
   (calculateIOPS_floor_of_nonneg rtExact).2.2.2 apiCreateOk sampleData [] (by
      have hv := validateSize_accepts rtExact apiCreateOk sampleData [] samplePlans
        [.obj [("bs_size", .num 1)], .obj [("bs_size", .num 2)]] rfl rfl
        samplePlans_wellFormed
        ⟨[("bs_size", .num 1)], 1, by simp, rfl,
          by norm_num [rtExact, sampleData, sampleAttrs]⟩
      have hid : sampleData.cur.project_id = 7 := rfl
      have hl : sampleData.cur.location = "Delhi" := rfl
      simp only [hid, hl, List.nil_append] at hv
      simp only [resourceCreateBlockStorage, hv]
      rfl)⟩

/-- Reading a map at a key other than that of its first entry. -/
theorem lookup_cons_ne (a k : String) (v : Json) (es : JMap) (h : a ≠ k) :
    List.lookup a ((k, v) :: es) = List.lookup a es := by
  have hb : (a == k) = false := by simp [h]
  rw [List.lookup_cons, hb]

/-- A deleted key is absent. -/
theorem lookup_delete_self (m : JMap) (key : String) :
    (JMap.delete m key).lookup key = none := by
  induction m with
  | nil => rfl
  | cons kv rest ih =>
    obtain ⟨a, v⟩ := kv
    unfold JMap.delete at ih ⊢
    by_cases h : a = key
    · have hp : ¬ ((fun kv : String × Json => kv.1 != key) (a, v)) = true := by simp [h]
      rw [@List.filter_cons_of_neg (String × Json) (fun kv => kv.1 != key) (a, v) rest hp]
      exact ih
    · have hp : ((fun kv : String × Json => kv.1 != key) (a, v)) = true := by simp [h]
      rw [@List.filter_cons_of_pos (String × Json) (fun kv => kv.1 != key) (a, v) rest hp,
        lookup_cons_ne key a v _ (fun e => h e.symm)]
      exact ih

/-- A `delete` leaves the other keys as they were. -/
theorem lookup_delete_ne (m : JMap) (key k : String) (hk : k ≠ key) :
    (JMap.delete m key).lookup k = m.lookup k := by
  induction m with
  | nil => rfl
  | cons kv rest ih =>
    obtain ⟨a, v⟩ := kv
    unfold JMap.delete at ih ⊢
    by_cases h : a = key
    · have hp : ¬ ((fun kv : String × Json => kv.1 != key) (a, v)) = true := by simp [h]
      rw [@List.filter_cons_of_neg (String × Json) (fun kv => kv.1 != key) (a, v) rest hp,
        lookup_cons_ne k a v _ (fun e => hk (e.trans h))]
      exact ih
    · have hp : ((fun kv : String × Json => kv.1 != key) (a, v)) = true := by simp [h]
      rw [@List.filter_cons_of_pos (String × Json) (fun kv => kv.1 != key) (a, v) rest hp]
      by_cases h3 : k = a
      · subst h3
        rw [List.lookup_cons_self, List.lookup_cons_self]
      · rw [lookup_cons_ne k a v _ h3, lookup_cons_ne k a v _ h3]
        exact ih

/-- A replaced key, when present, holds the new value. -/
theorem lookup_replace_self (m : JMap) (key : String) (v v0 : Json)
    (h : m.lookup key = some v0) : (JMap.replace m key v).lookup key = some v := by
  induction m with
  | nil => simp at h
  | cons kv rest ih =>
    obtain ⟨a, w⟩ := kv
    unfold JMap.replace at ih ⊢
    by_cases ha : a = key
    · subst ha
      simp [List.lookup_cons_self]
    · rw [lookup_cons_ne key a w _ (fun e => ha e.symm)] at h
      simp only [List.map_cons, if_neg ha]
      rw [lookup_cons_ne key a w _ (fun e => ha e.symm)]
      exact ih h

/-- A `replace` leaves the other keys as they were. -/
theorem lookup_replace_ne (m : JMap) (key k : String) (v : Json) (hk : k ≠ key) :
    (JMap.replace m key v).lookup k = m.lookup k := by
  induction m with
  | nil => rfl
  | cons kv rest ih =>
    obtain ⟨a, w⟩ := kv
    unfold JMap.replace at ih ⊢
    by_cases ha : a = key
    · have hka : k ≠ a := fun e => hk (e.trans ha)
      simp only [List.map_cons, if_pos ha]
      rw [lookup_cons_ne k a v _ hka, lookup_cons_ne k a w _ hka]
      exact ih
    · simp only [List.map_cons, if_neg ha]
      by_cases h3 : k = a
      · subst h3
        rw [List.lookup_cons_self, List.lookup_cons_self]
      · rw [lookup_cons_ne k a w _ h3, lookup_cons_ne k a w _ h3]
        exact ih

/-- The loop body of `RemoveExtraFieldsFromKubernetes` shapes a node pool
entry as the specification says. -/
theorem stripNodePool_shaped (nodePool : Json) : NodePoolShaped nodePool (stripNodePool nodePool) := by
  constructor
  · intro m hm
    subst hm
    rcases Option.eq_none_or_eq_some (m.lookup "worker_node") with hw | ⟨val, hw⟩
    · refine ⟨m, by simp [stripNodePool, hw], ?_, ?_, fun _ => rfl⟩
      · intro h; rw [hw] at h; cases h
      · rintro ⟨w, h, _⟩; rw [hw] at h; cases h
    · have hother : (∀ w, val ≠ Json.num w) →
          ∃ m1, stripNodePool (Json.obj m) = Json.obj m1 ∧
            (m.lookup "worker_node" = some (Json.num 0) →
              m1.lookup "worker_node" = none ∧
              ∀ k, k ≠ "worker_node" → m1.lookup k = m.lookup k) ∧
            ((∃ w, m.lookup "worker_node" = some (Json.num w) ∧ w ≥ 2) →
              m1.lookup "elasticity_dict" = none ∧
              ∀ k, k ≠ "elasticity_dict" → m1.lookup k = m.lookup k) ∧
            ((∀ w, m.lookup "worker_node" = some (Json.num w) → w ≠ 0 ∧ ¬ w ≥ 2) →
              m1 = m) := by
        intro hnn
        refine ⟨m, ?_, ?_, ?_, fun _ => rfl⟩
        · cases val with
          | num w => exact absurd rfl (hnn w)
          | null => simp [stripNodePool, hw]
          | bool b => simp [stripNodePool, hw]
          | str x => simp [stripNodePool, hw]
          | arr xs => simp [stripNodePool, hw]
          | obj kvs => simp [stripNodePool, hw]
        · intro h
          rw [hw] at h
          injection h with h
          exact absurd h (hnn 0)
        · rintro ⟨w, h, _⟩
          rw [hw] at h
          injection h with h
          exact absurd h (hnn w)
      cases val with
      | null => exact hother (fun w h => by cases h)
      | bool b => exact hother (fun w h => by cases h)
      | str x => exact hother (fun w h => by cases h)
      | arr xs => exact hother (fun w h => by cases h)
      | obj kvs => exact hother (fun w h => by cases h)
      | num w =>
        have hval : ∀ w2, m.lookup "worker_node" = some (Json.num w2) → w2 = w := by
          intro w2 h
          rw [hw] at h
          injection h with h
          injection h with h
          exact h.symm
        by_cases h0 : w = 0
        · refine ⟨JMap.delete m "worker_node", by simp [stripNodePool, hw, h0], ?_, ?_, ?_⟩
          · intro _
            exact ⟨lookup_delete_self m "worker_node",
              fun k hk => lookup_delete_ne m "worker_node" k hk⟩
          · rintro ⟨w2, h, hge⟩
            have := hval w2 h
            subst this
            subst h0
            norm_num at hge
          · intro h
            exact absurd h0 (h w hw).1
        · by_cases h2 : w ≥ 2
          · cases he : m.lookup "elasticity_dict" with
            | none =>
              refine ⟨m, by simp [stripNodePool, hw, h0, h2, he], ?_, ?_, fun _ => rfl⟩
              · intro h
                exact absurd (hval 0 h).symm h0
              · intro _
                exact ⟨he, fun _ _ => rfl⟩
            | some e =>
              refine ⟨JMap.delete m "elasticity_dict",
                by simp [stripNodePool, hw, h0, h2, he], ?_, ?_, ?_⟩
              · intro h
                exact absurd (hval 0 h).symm h0
              · intro _
                exact ⟨lookup_delete_self m "elasticity_dict",
                  fun k hk => lookup_delete_ne m "elasticity_dict" k hk⟩
              · intro h
                exact absurd h2 (h w hw).2
          · refine ⟨m, by simp [stripNodePool, hw, h0, h2], ?_, ?_, fun _ => rfl⟩
            · intro h
              exact absurd (hval 0 h).symm h0
            · rintro ⟨w2, h, hge⟩
              have := hval w2 h
              subst this
              exact absurd hge h2
  · intro h
    cases nodePool with
    | obj m => exact absurd rfl (h m)
    | null => rfl
    | bool b => rfl
    | num q => rfl
    | str s => rfl
    | arr xs => rfl

/-- Every entry of the shaped node pools is related to the entry it comes
from. -/
theorem stripNodePool_forall₂ (nodePools : List Json) :
    List.Forall₂ NodePoolShaped nodePools (nodePools.map stripNodePool) := by
  induction nodePools with
  | nil => exact List.Forall₂.nil
  | cons x xs ih => exact List.Forall₂.cons (stripNodePool_shaped x) ih

/-- C10: on a payload that decodes to a JSON object `data`,
`RemoveExtraFieldsFromKubernetes` returns an error exactly when `node_pools`
is missing or not a list, and then `NewKubernetesService` returns that error
before building any request; otherwise the returned buffer is the encoding of
a map `data1` (the input buffer itself should the encoding fail, which
`json.Marshal` does not do on decoded values) that agrees with `data` on every
key but `node_pools`, where it holds a list whose entries are, one by one, the
entries of the input shaped as the specification says: `worker_node` removed
when it is the number 0, `elasticity_dict` removed when `worker_node` is a
number at least 2, anything else unchanged. -/
theorem removeExtraFields_shapes_node_pools (codec : JsonCodec) (buf : Bytes) (data : JMap)
    (hdec : codec.Unmarshal buf = .ok data) :
    ((RemoveExtraFieldsFromKubernetes codec buf).2 ≠ none ↔
      ∀ nodePools, data.lookup "node_pools" ≠ some (Json.arr nodePools)) ∧
    ((∃ err, NewKubernetesService_payload codec buf = .error err) ↔
      ∀ nodePools, data.lookup "node_pools" ≠ some (Json.arr nodePools)) ∧
    (∀ nodePools, data.lookup "node_pools" = some (Json.arr nodePools) →
      ∃ data1 nodePools1,
        (∀ out, codec.Marshal data1 = .ok out →
          RemoveExtraFieldsFromKubernetes codec buf = (out, none) ∧
          NewKubernetesService_payload codec buf = .ok out) ∧
        (∀ e, codec.Marshal data1 = .error e →
          RemoveExtraFieldsFromKubernetes codec buf = (buf, none)) ∧
        data1.lookup "node_pools" = some (Json.arr nodePools1) ∧
        (∀ k, k ≠ "node_pools" → data1.lookup k = data.lookup k) ∧
        List.Forall₂ NodePoolShaped nodePools nodePools1) := by
  have hlist : ∀ nodePools, data.lookup "node_pools" = some (Json.arr nodePools) →
      RemoveExtraFieldsFromKubernetes codec buf
        = (match codec.Marshal
            (JMap.replace data "node_pools" (Json.arr (nodePools.map stripNodePool))) with
          | .error _ => (buf, none)
          | .ok NewjsonData => (NewjsonData, none)) := by
    intro nodePools h
    simp only [RemoveExtraFieldsFromKubernetes, hdec, h]
  have hbad : (∀ nodePools, data.lookup "node_pools" ≠ some (Json.arr nodePools)) →
      RemoveExtraFieldsFromKubernetes codec buf
        = (buf, some "node_pools field is missing or invalid") := by
    intro h
    cases hl : data.lookup "node_pools" with
    | none => simp only [RemoveExtraFieldsFromKubernetes, hdec, hl]
    | some v =>
      cases v with
      | arr nodePools => exact absurd hl (h nodePools)
      | null => simp only [RemoveExtraFieldsFromKubernetes, hdec, hl]
      | bool b => simp only [RemoveExtraFieldsFromKubernetes, hdec, hl]
      | num q => simp only [RemoveExtraFieldsFromKubernetes, hdec, hl]
      | str x => simp only [RemoveExtraFieldsFromKubernetes, hdec, hl]
      | obj kvs => simp only [RemoveExtraFieldsFromKubernetes, hdec, hl]
  have hgood : ∀ nodePools, data.lookup "node_pools" = some (Json.arr nodePools) →
      (RemoveExtraFieldsFromKubernetes codec buf).2 = none := by
    intro nodePools h
    rw [hlist nodePools h]
    split <;> rfl
  refine ⟨⟨?_, ?_⟩, ⟨?_, ?_⟩, ?_⟩
  · intro hne nodePools h
    exact hne (hgood nodePools h)
  · intro h
    rw [hbad h]
    simp
  · rintro ⟨err, herr⟩ nodePools h
    have h2 := hgood nodePools h
    unfold NewKubernetesService_payload at herr
    split at herr
    · rename_i heq
      rw [heq] at h2
      cases h2
    · cases herr
  · intro h
    refine ⟨"node_pools field is missing or invalid", ?_⟩
    simp only [NewKubernetesService_payload, hbad h]
  · intro nodePools h
    refine ⟨JMap.replace data "node_pools" (Json.arr (nodePools.map stripNodePool)),
      nodePools.map stripNodePool, ?_, ?_, ?_, ?_, stripNodePool_forall₂ nodePools⟩
    · intro out hout
      have hr : RemoveExtraFieldsFromKubernetes codec buf = (out, none) := by
        rw [hlist nodePools h, hout]
      exact ⟨hr, by simp only [NewKubernetesService_payload, hr]⟩
    · intro e he
      rw [hlist nodePools h, he]
    · exact lookup_replace_self data "node_pools" _ _ h
    · intro k hk
      exact lookup_replace_ne data "node_pools" k _ hk

/-- Witness for C10: the sample payload has a `node_pools` list, so no error is
returned. -/
theorem removeExtraFields_shapes_node_pools_witness :
    ¬ (RemoveExtraFieldsFromKubernetes codecSample []).2 ≠ none :=
  fun h => (removeExtraFields_shapes_node_pools codecSample [] samplePayload rfl).1.mp h _ rfl

/-- The function `validateSize` issues the plans call and nothing else. -/
theorem validateSize_trace (rt : GoEnv) (api : Client) (d : ResourceData) (tr : List Call) :
    (validateSize rt api d tr).2
      = tr ++ [Call.GetBlockStoragePlans d.cur.project_id d.cur.location] := by
  unfold validateSize
  dsimp only
  split
  · rfl
  · split
    · split
      · rfl
      · split <;> rfl
    · rfl

/-- The handler `resourceReadBlockStorage` issues one GET and nothing else. -/
theorem resourceReadBlockStorage_trace (rt : GoEnv) (api : Client) (d : ResourceData)
    (tr : List Call) :
    (resourceReadBlockStorage rt api d tr).trace
      = tr ++ [Call.GetBlockStorage d.id d.cur.project_id d.cur.location] := by
  unfold resourceReadBlockStorage
  dsimp only
  repeat' split
  all_goals rfl

/-- The function `waitForDetach` issues reads of the volume and nothing else. -/
theorem waitForDetach_trace (api : Client) (blockStorageID : String) (project_id : Int)
    (location : String) (fuel : Nat) (tr : List Call) :
    ∃ polls, (waitForDetach api blockStorageID project_id location fuel tr).2 = tr ++ polls ∧
      ∀ c ∈ polls, c = Call.GetBlockStorage blockStorageID project_id location := by
  induction fuel generalizing tr with
  | zero => exact ⟨[], by simp [waitForDetach], by simp⟩
  | succ n ih =>
    obtain ⟨polls, hp, hall⟩ :=
      ih (tr ++ [Call.GetBlockStorage blockStorageID project_id location])
    have hone : ∃ polls,
        tr ++ [Call.GetBlockStorage blockStorageID project_id location] = tr ++ polls ∧
        ∀ c ∈ polls, c = Call.GetBlockStorage blockStorageID project_id location :=
      ⟨[Call.GetBlockStorage blockStorageID project_id location], rfl, by simp⟩
    have hmore : ∃ polls,
        (waitForDetach api blockStorageID project_id location n
          (tr ++ [Call.GetBlockStorage blockStorageID project_id location])).2 = tr ++ polls ∧
        ∀ c ∈ polls, c = Call.GetBlockStorage blockStorageID project_id location := by
      refine ⟨Call.GetBlockStorage blockStorageID project_id location :: polls, ?_, ?_⟩
      · rw [hp]; simp
      · intro c hc
        rcases List.mem_cons.mp hc with h | h
        · exact h
        · exact hall c h
    unfold waitForDetach
    dsimp only
    repeat' split
    all_goals first | exact hone | exact hmore

/-- While the status is not "Attached", the size/name category (closing read
included) issues the plans call or one read, never an upgrade or an attach. -/
theorem updateSizeOrName_calls_unattached (rt : GoEnv) (api : Client) (blockStorage : JMap)
    (blockStorageID : String) (project_id : Int) (location : String)
    (d : ResourceData) (tr : List Call) (hst : d.cur.status ≠ "Attached") :
    ∃ issued,
      (updateSizeOrName rt api blockStorage blockStorageID project_id location d tr).trace
        = tr ++ issued ∧
      ∀ c ∈ issued, c.isUpgrade = false ∧ c.isAttach = false := by
  by_cases hchg : d.old.size ≠ d.new.size ∨ d.old.name ≠ d.new.name
  · refine ⟨[Call.GetBlockStoragePlans d.cur.project_id d.cur.location], ?_, ?_⟩
    · have htr := validateSize_trace rt api d tr
      rcases hv : validateSize rt api d tr with ⟨r, tr1⟩
      rw [hv] at htr
      simp only at htr
      subst htr
      simp only [updateSizeOrName, hchg, if_true, hv, hst, if_false]
      rcases r with _ | _ | err <;> rfl
    · intro c hc
      rw [List.mem_singleton] at hc
      subst hc
      exact ⟨rfl, rfl⟩
  · refine ⟨[Call.GetBlockStorage d.id d.cur.project_id d.cur.location], ?_, ?_⟩
    · simp only [updateSizeOrName, hchg, if_false]
      exact resourceReadBlockStorage_trace rt api d tr
    · intro c hc
      rw [List.mem_singleton] at hc
      subst hc
      exact ⟨rfl, rfl⟩

/-- When a VM is requested, the wait-and-attach stage issues reads and at most
one attach call, and ends the update there. -/
theorem updateWaitAndAttach_calls_requested (fuel : Nat) (rt : GoEnv) (api : Client)
    (blockStorage : JMap) (blockStorageID : String) (project_id : Int) (location : String)
    (d : ResourceData) (tr : List Call) (hreq : strOf d.new.vm_id ≠ "") :
    ∃ issued,
      (updateWaitAndAttach fuel rt api blockStorage blockStorageID project_id location
        d tr).trace = tr ++ issued ∧
      ∀ c ∈ issued, c.isReadOrAttachDetach = true := by
  obtain ⟨polls, hp, hall⟩ := waitForDetach_trace api blockStorageID project_id location fuel tr
  have hpolls : ∀ c ∈ polls, c.isReadOrAttachDetach = true := by
    intro c hc
    rw [hall c hc]
    rfl
  rcases hw : waitForDetach api blockStorageID project_id location fuel tr with ⟨r, tr1⟩
  rw [hw] at hp
  simp only at hp
  subst hp
  have hsame : ∃ issued, tr ++ polls = tr ++ issued ∧
      ∀ c ∈ issued, c.isReadOrAttachDetach = true := ⟨polls, rfl, hpolls⟩
  have hattach : ∀ vm_id : Int, ∃ issued,
      tr ++ polls ++ [Call.AttachOrDetachBlockStorage vm_id "attach" blockStorageID
        project_id location] = tr ++ issued ∧
      ∀ c ∈ issued, c.isReadOrAttachDetach = true := by
    intro vm_id
    refine ⟨polls ++ [Call.AttachOrDetachBlockStorage vm_id "attach" blockStorageID
      project_id location], by simp, ?_⟩
    intro c hc
    rcases List.mem_append.mp hc with h | h
    · exact hpolls c h
    · rw [List.mem_singleton] at h
      subst h
      rfl
  unfold updateWaitAndAttach
  simp only [hw, hreq, ne_eq, not_false_eq_true, if_true]
  cases r with
  | blocked => exact hsame
  | panic => exact hsame
  | diags ds =>
    dsimp only
    split
    · split
      · exact hsame
      · rename_i vm_id _
        split
        · exact hattach vm_id
        · split
          · split
            · exact hattach vm_id
            · exact hattach vm_id
          · exact hattach vm_id
    · exact hsame

/-- A read or an attach/detach call is not an upgrade. -/
theorem isUpgrade_of_isReadOrAttachDetach (c : Call) (h : c.isReadOrAttachDetach = true) :
    c.isUpgrade = false := by
  cases c <;> first | rfl | cases h

/-- Calls that are reads or detach calls may precede the calls of the
wait-and-attach stage without changing their description. -/
theorem VmChangeCalls_append (requested : String) (pre rest : List Call)
    (hpre : ∀ c ∈ pre, c.isReadOrAttachDetach = true ∧ c.isAttach = false)
    (hrest : VmChangeCalls requested rest) : VmChangeCalls requested (pre ++ rest) := by
  obtain ⟨h1, h2, h3⟩ := hrest
  refine ⟨?_, ?_, ?_⟩
  · intro c hc
    rcases List.mem_append.mp hc with h | h
    · exact isUpgrade_of_isReadOrAttachDetach c (hpre c h).1
    · exact h1 c h
  · intro hreq c hc
    rcases List.mem_append.mp hc with h | h
    · exact (hpre c h).1
    · exact h2 hreq c h
  · intro hreq c hc
    rcases List.mem_append.mp hc with h | h
    · exact (hpre c h).2
    · exact h3 hreq c h

/-- The calls of the wait-and-attach stage and of what follows it, when a
detach-only change leaves a status other than "Attached". -/
theorem updateWaitAndAttach_calls (fuel : Nat) (rt : GoEnv) (api : Client)
    (blockStorage : JMap) (blockStorageID : String) (project_id : Int) (location : String)
    (d : ResourceData) (tr : List Call)
    (hst : strOf d.new.vm_id = "" → d.cur.status ≠ "Attached") :
    ∃ issued,
      (updateWaitAndAttach fuel rt api blockStorage blockStorageID project_id location
        d tr).trace = tr ++ issued ∧
      VmChangeCalls (strOf d.new.vm_id) issued := by
  by_cases hreq : strOf d.new.vm_id ≠ ""
  · obtain ⟨issued, htr, hall⟩ := updateWaitAndAttach_calls_requested fuel rt api blockStorage
      blockStorageID project_id location d tr hreq
    exact ⟨issued, htr, fun c hc => isUpgrade_of_isReadOrAttachDetach c (hall c hc),
      fun _ => hall, fun h => absurd h hreq⟩
  · have hempty : strOf d.new.vm_id = "" := not_not.mp hreq
    obtain ⟨polls, hp, hall⟩ :=
      waitForDetach_trace api blockStorageID project_id location fuel tr
    have hpolls : ∀ c ∈ polls, c.isReadOrAttachDetach = true ∧ c.isAttach = false := by
      intro c hc
      rw [hall c hc]
      exact ⟨rfl, rfl⟩
    have hsame : ∃ issued, tr ++ polls = tr ++ issued ∧ VmChangeCalls "" issued := by
      refine ⟨polls, rfl, fun c hc => isUpgrade_of_isReadOrAttachDetach c (hpolls c hc).1,
        fun h => absurd rfl h, fun _ c hc => (hpolls c hc).2⟩
    rcases hw : waitForDetach api blockStorageID project_id location fuel tr with ⟨r, tr1⟩
    rw [hw] at hp
    simp only at hp
    subst hp
    unfold updateWaitAndAttach
    simp only [hw, hempty, ne_eq, not_true_eq_false, if_false]
    cases r with
    | blocked => exact hsame
    | panic => exact hsame
    | diags ds =>
      obtain ⟨rest, hrest, hno⟩ := updateSizeOrName_calls_unattached rt api blockStorage
        blockStorageID project_id location d (tr ++ polls) (hst hempty)
      refine ⟨polls ++ rest, by rw [hrest, List.append_assoc], ?_⟩
      exact VmChangeCalls_append _ polls rest hpolls
        ⟨fun c hc => (hno c hc).1, fun h => absurd rfl h, fun _ c hc => (hno c hc).2⟩

/-- The calls of an update in which `vm_id` has changed: the opening read, the
detach when there is one, then those of the wait-and-attach stage. -/
theorem resourceUpdateBlockStorage_vm_calls (fuel : Nat) (rt : GoEnv) (api : Client)
    (d : ResourceData) (tr : List Call) (hvm : strOf d.old.vm_id ≠ strOf d.new.vm_id) :
    ∃ issued, (resourceUpdateBlockStorage fuel rt api d tr).trace = tr ++ issued ∧
      VmChangeCalls (strOf d.new.vm_id) issued := by
  have hget1 : ∀ c ∈ [Call.GetBlockStorage d.id d.cur.project_id d.cur.location],
      c.isReadOrAttachDetach = true ∧ c.isAttach = false := by
    intro c hc
    rw [List.mem_singleton] at hc
    subst hc
    exact ⟨rfl, rfl⟩
  have hnil : VmChangeCalls (strOf d.new.vm_id) [] := by
    unfold VmChangeCalls
    exact ⟨fun c hc => (by cases hc), fun _ c hc => (by cases hc),
      fun _ c hc => (by cases hc)⟩
  have hav : ("Available" : String) ≠ "Attached" := by decide
  have hone : ∃ issued,
      tr ++ [Call.GetBlockStorage d.id d.cur.project_id d.cur.location] = tr ++ issued ∧
      VmChangeCalls (strOf d.new.vm_id) issued :=
    ⟨[Call.GetBlockStorage d.id d.cur.project_id d.cur.location] ++ [], by simp,
      VmChangeCalls_append _ _ [] hget1 hnil⟩
  unfold resourceUpdateBlockStorage
  dsimp only
  cases hget : api (tr ++ [Call.GetBlockStorage d.id d.cur.project_id d.cur.location]) with
  | error err =>
    dsimp only
    split <;> exact hone
  | ok blockStorage =>
    dsimp only
    by_cases hloc : d.old.location ≠ d.new.location
    · rw [if_pos hloc]
      exact hone
    · rw [if_neg hloc]
      by_cases hproj : d.old.project_id ≠ d.new.project_id
      · rw [if_pos hproj]
        exact hone
      · rw [if_neg hproj, if_pos hvm]
        by_cases hcond : d.cur.status = "Attached" ∧ strOf d.old.vm_id ≠ ""
        · rw [if_pos hcond]
          cases hat : Atoi rt (strOf d.old.vm_id) with
          | error err => exact hone
          | ok vm_id =>
            dsimp only
            have hpre : ∀ c ∈ [Call.GetBlockStorage d.id d.cur.project_id d.cur.location,
                Call.AttachOrDetachBlockStorage vm_id "detach" d.id d.cur.project_id
                  d.cur.location],
                c.isReadOrAttachDetach = true ∧ c.isAttach = false := by
              intro c hc
              simp only [List.mem_cons, List.mem_singleton, List.not_mem_nil, or_false] at hc
              rcases hc with h | h <;> subst h
              · exact ⟨rfl, rfl⟩
              · exact ⟨rfl, by simp [Call.isAttach]⟩
            cases hdet : api (tr ++ [Call.GetBlockStorage d.id d.cur.project_id d.cur.location]
                ++ [Call.AttachOrDetachBlockStorage vm_id "detach" d.id d.cur.project_id
                  d.cur.location]) with
            | error err =>
              exact ⟨_ ++ [], by simp, VmChangeCalls_append _ _ [] hpre hnil⟩
            | ok res =>
              dsimp only
              obtain ⟨rest, hrest, hcalls⟩ := updateWaitAndAttach_calls fuel rt api blockStorage
                d.id d.cur.project_id d.cur.location
                { d with cur := { d.cur with status := "Available" } }
                (tr ++ [Call.GetBlockStorage d.id d.cur.project_id d.cur.location]
                  ++ [Call.AttachOrDetachBlockStorage vm_id "detach" d.id d.cur.project_id
                    d.cur.location])
                (fun _ => hav)
              refine ⟨[Call.GetBlockStorage d.id d.cur.project_id d.cur.location,
                Call.AttachOrDetachBlockStorage vm_id "detach" d.id d.cur.project_id
                  d.cur.location] ++ rest, ?_, VmChangeCalls_append _ _ rest hpre hcalls⟩
              rw [hrest]
              simp
        · rw [if_neg hcond]
          have hst : strOf d.new.vm_id = "" → d.cur.status ≠ "Attached" := by
            intro hempty hatt
            apply hcond
            refine ⟨hatt, fun hp => hvm ?_⟩
            rw [hp, hempty]
          obtain ⟨rest, hrest, hcalls⟩ := updateWaitAndAttach_calls fuel rt api blockStorage
            d.id d.cur.project_id d.cur.location d
            (tr ++ [Call.GetBlockStorage d.id d.cur.project_id d.cur.location]) hst
          refine ⟨[Call.GetBlockStorage d.id d.cur.project_id d.cur.location] ++ rest, ?_,
            VmChangeCalls_append _ _ rest hget1 hcalls⟩
          rw [hrest]
          simp

/-- A read or an attach/detach call is not a plans call. -/
theorem isPlans_of_isReadOrAttachDetach (c : Call) (h : c.isReadOrAttachDetach = true) :
    c.isPlans = false := by
  cases c <;> first | rfl | cases h

/-- Amended C11: in every update in which `vm_id` has changed (the only
updates that issue a detach or an attach call), whatever else changed, no
upgrade call is issued; when the new `vm_id` is non-empty, the calls issued
are reads of the volume and attach/detach calls only, so the size/name
category is not evaluated (no plans call, hence none of the rejections that
follow it, and no upgrade call); when the new `vm_id` is empty no attach call
is issued. -/
theorem update_vm_change_excludes_upgrade (fuel : Nat) (rt : GoEnv) (api : Client)
    (d : ResourceData) (tr : List Call) (hvm : strOf d.old.vm_id ≠ strOf d.new.vm_id) :
    ∃ issued, (resourceUpdateBlockStorage fuel rt api d tr).trace = tr ++ issued ∧
      (∀ c ∈ issued, c.isUpgrade = false) ∧
      (strOf d.new.vm_id ≠ "" →
        ∀ c ∈ issued, c.isReadOrAttachDetach = true ∧ c.isPlans = false) ∧
      (strOf d.new.vm_id = "" → ∀ c ∈ issued, c.isAttach = false) := by
  obtain ⟨issued, htr, h1, h2, h3⟩ := resourceUpdateBlockStorage_vm_calls fuel rt api d tr hvm
  exact ⟨issued, htr, h1,
    fun hreq c hc => ⟨h2 hreq c hc, isPlans_of_isReadOrAttachDetach c (h2 hreq c hc)⟩, h3⟩

/-- Witness for amended C11: the volume moves from VM 12 to VM 34. -/
theorem update_vm_change_excludes_upgrade_witness :
    ∃ issued, (resourceUpdateBlockStorage 5 rtExact apiPollFails dataMoveVm []).trace
        = [] ++ issued ∧
      (∀ c ∈ issued, c.isUpgrade = false) ∧
      (strOf dataMoveVm.new.vm_id ≠ "" →
        ∀ c ∈ issued, c.isReadOrAttachDetach = true ∧ c.isPlans = false) ∧
      (strOf dataMoveVm.new.vm_id = "" → ∀ c ∈ issued, c.isAttach = false) :=
  update_vm_change_excludes_upgrade 5 rtExact apiPollFails dataMoveVm [] (by decide)

/-- Counterexample to C11: the volume is attached to VM 12, the update asks
for the empty `vm_id` and for a growth from 1000 GB to 2000 GB.  The update
issues the detach call, then validates the size against the plans and rejects
the size change. -/
theorem update_detach_then_size_category :
    strOf dataDetachAndGrow.old.vm_id = "12" ∧
    strOf dataDetachAndGrow.new.vm_id = "" ∧
    (resourceUpdateBlockStorage 5 rtExact apiDetachThenPlans dataDetachAndGrow []).trace
      = [Call.GetBlockStorage "42" 7 "Delhi",
          Call.AttachOrDetachBlockStorage 12 "detach" "42" 7 "Delhi",
          Call.GetBlockStorage "42" 7 "Delhi",
          Call.GetBlockStoragePlans 7 "Delhi"] ∧
    (resourceUpdateBlockStorage 5 rtExact apiDetachThenPlans dataDetachAndGrow []).result
      = .diags
          ["You cannot upgrade a block storage name or size unless it is attached to a node"]
    := by
  have h12 : Atoi rtExact "12" = .ok 12 := by rfl
  have hround : ∀ x : ℚ, rtExact.round x = x := fun _ => rfl
  have h2 : (2 : ℚ) * 1000 = 2000 := by norm_num
  have h1 : ¬ (1000 : ℚ) = 2000 := by norm_num
  refine ⟨rfl, rfl, ?_, ?_⟩ <;>
    simp [resourceUpdateBlockStorage, updateWaitAndAttach, waitForDetach, updateSizeOrName,
      validateSize, validateSizeLoop, apiDetachThenPlans, dataDetachAndGrow, attachedAttrs,
      sampleAttrs, samplePlans, getResponseAvailable, getResponseAttached, hround, Errorf,
      strOf, h12, h2, h1, List.lookup]

/-- A read that ends with an error diagnostic has written nothing. -/
theorem resourceReadBlockStorage_error_keeps (rt : GoEnv) (api : Client) (d : ResourceData)
    (tr : List Call) (ds : List String)
    (hres : (resourceReadBlockStorage rt api d tr).result = .diags ds) (herr : ds ≠ []) :
    (resourceReadBlockStorage rt api d tr).d = d := by
  revert hres
  unfold resourceReadBlockStorage
  dsimp only
  repeat' split
  all_goals first
    | (intro h; cases h; exact absurd rfl herr)
    | (intro h; cases h; done)
    | (intro _; rfl)

/-- The size/name category (closing read included), when it ends with an
error diagnostic, leaves the previous name and size and touches nothing
else. -/
theorem updateSizeOrName_error_restores (rt : GoEnv) (api : Client) (blockStorage : JMap)
    (blockStorageID : String) (project_id : Int) (location : String)
    (d : ResourceData) (tr : List Call) (ds : List String)
    (hname : d.cur.name = d.new.name) (hsize : d.cur.size = d.new.size)
    (hres : (updateSizeOrName rt api blockStorage blockStorageID project_id location d
      tr).result = .diags ds)
    (herr : ds ≠ []) :
    NameSizeRestored d
      (updateSizeOrName rt api blockStorage blockStorageID project_id location d tr).d := by
  unfold NameSizeRestored
  by_cases hchg : d.old.size ≠ d.new.size ∨ d.old.name ≠ d.new.name
  · revert hres
    simp only [updateSizeOrName, hchg, if_true]
    repeat' split
    all_goals first
      | (intro h; cases h; exact absurd rfl herr)
      | (intro h; cases h; done)
      | (intro _; exact ⟨rfl, rfl, rfl, rfl, rfl⟩)
  · simp only [updateSizeOrName, hchg, if_false] at hres ⊢
    rw [resourceReadBlockStorage_error_keeps rt api d tr ds hres herr]
    have hs : d.old.size = d.new.size := by
      by_contra h
      exact hchg (Or.inl h)
    have hn : d.old.name = d.new.name := by
      by_contra h
      exact hchg (Or.inr h)
    exact ⟨hname.trans hn.symm, hsize.trans hs.symm, rfl, rfl, rfl⟩

/-- The wait-and-attach stage and what follows it, when it ends with an error
diagnostic, leaves the previous name and size, and a `vm_id` that reads as the
previous one or as the empty string. -/
theorem updateWaitAndAttach_error_restores (fuel : Nat) (rt : GoEnv) (api : Client)
    (blockStorage : JMap) (blockStorageID : String) (project_id : Int) (location : String)
    (d : ResourceData) (tr : List Call) (ds : List String)
    (hname : d.cur.name = d.new.name) (hsize : d.cur.size = d.new.size)
    (hvmcur : strOf d.cur.vm_id = strOf d.new.vm_id)
    (hres : (updateWaitAndAttach fuel rt api blockStorage blockStorageID project_id location
      d tr).result = .diags ds)
    (herr : ds ≠ []) :
    (updateWaitAndAttach fuel rt api blockStorage blockStorageID project_id location
      d tr).d.cur.name = d.old.name ∧
    (updateWaitAndAttach fuel rt api blockStorage blockStorageID project_id location
      d tr).d.cur.size = d.old.size ∧
    (updateWaitAndAttach fuel rt api blockStorage blockStorageID project_id location
      d tr).d.cur.location = d.cur.location ∧
    (updateWaitAndAttach fuel rt api blockStorage blockStorageID project_id location
      d tr).d.cur.project_id = d.cur.project_id ∧
    (strOf (updateWaitAndAttach fuel rt api blockStorage blockStorageID project_id location
        d tr).d.cur.vm_id = strOf d.old.vm_id ∨
      strOf (updateWaitAndAttach fuel rt api blockStorage blockStorageID project_id location
        d tr).d.cur.vm_id = "") := by
  by_cases hreq : strOf d.new.vm_id ≠ ""
  · revert hres
    simp only [updateWaitAndAttach, hreq, ne_eq, not_false_eq_true, if_true]
    repeat' split
    all_goals first
      | (intro h; cases h; exact absurd rfl herr)
      | (intro h; cases h; done)
      | (intro _; exact ⟨rfl, rfl, rfl, rfl, Or.inl rfl⟩)
      | (intro _; exact ⟨rfl, rfl, rfl, rfl, Or.inr rfl⟩)
  · have hempty : strOf d.new.vm_id = "" := not_not.mp hreq
    rcases hw : waitForDetach api blockStorageID project_id location fuel tr with ⟨r, tr1⟩
    simp only [updateWaitAndAttach, hw, hempty, ne_eq, not_true_eq_false, if_false] at hres ⊢
    cases r with
    | blocked => cases hres
    | panic => cases hres
    | diags ws =>
      simp only at hres ⊢
      obtain ⟨h1, h2, h3, h4, h5⟩ := updateSizeOrName_error_restores rt api blockStorage
        blockStorageID project_id location d tr1 ds hname hsize hres herr
      refine ⟨h1, h2, h4, h5, Or.inr ?_⟩
      rw [h3, hvmcur, hempty]

/-- The run of the update that moves the volume from VM 12 to VM 34 on a
server where the detach succeeds, the poll reports "Available" and the attach
fails. -/
theorem update_failed_attach_run :
    resourceUpdateBlockStorage 5 rtExact apiAttachFails dataMoveVm []
      = ⟨.diags ["attach failed"],
          setPrevState
            { dataMoveVm with cur := { dataMoveVm.cur with status := "Available" } }
            "" "bs1" 1000,
          [Call.GetBlockStorage "42" 7 "Delhi",
            Call.AttachOrDetachBlockStorage 12 "detach" "42" 7 "Delhi",
            Call.GetBlockStorage "42" 7 "Delhi",
            Call.AttachOrDetachBlockStorage 34 "attach" "42" 7 "Delhi"]⟩ := by
  have h12 : Atoi rtExact "12" = .ok 12 := by rfl
  have h34 : Atoi rtExact "34" = .ok 34 := by rfl
  simp [resourceUpdateBlockStorage, updateWaitAndAttach, waitForDetach, apiAttachFails,
    dataMoveVm, sampleAttrs, getResponseAvailable, strOf, h12, h34, List.lookup]

/-- When a VM is requested and the status reads "Available", every error of
the wait-and-attach stage leaves the empty string in `vm_id`. -/
theorem updateWaitAndAttach_error_available (fuel : Nat) (rt : GoEnv) (api : Client)
    (blockStorage : JMap) (blockStorageID : String) (project_id : Int) (location : String)
    (d : ResourceData) (tr : List Call) (ds : List String)
    (hreq : strOf d.new.vm_id ≠ "") (hst : d.cur.status = "Available")
    (hres : (updateWaitAndAttach fuel rt api blockStorage blockStorageID project_id location
      d tr).result = .diags ds)
    (herr : ds ≠ []) :
    (updateWaitAndAttach fuel rt api blockStorage blockStorageID project_id location
      d tr).d.cur.vm_id = some "" := by
  revert hres
  simp only [updateWaitAndAttach, hreq, hst, ne_eq, not_false_eq_true, if_true]
  repeat' split
  all_goals first
    | (intro h; cases h; exact absurd rfl herr)
    | (intro h; cases h; done)
    | (intro _; rfl)

/-- An update that has detached the volume and then returns an error while a
VM is requested leaves the empty string in `vm_id`. -/
theorem update_error_after_detach (fuel : Nat) (rt : GoEnv) (api : Client)
    (d : ResourceData) (tr : List Call) (blockStorage res : JMap) (ds : List String)
    (vm_id : Int)
    (hget : api (tr ++ [Call.GetBlockStorage d.id d.cur.project_id d.cur.location])
      = .ok blockStorage)
    (hloc : d.old.location = d.new.location)
    (hproj : d.old.project_id = d.new.project_id)
    (hvm : strOf d.old.vm_id ≠ strOf d.new.vm_id)
    (hreq : strOf d.new.vm_id ≠ "")
    (hstatus : d.cur.status = "Attached")
    (hprev : strOf d.old.vm_id ≠ "")
    (hat : Atoi rt (strOf d.old.vm_id) = .ok vm_id)
    (hdet : api (tr ++ [Call.GetBlockStorage d.id d.cur.project_id d.cur.location]
      ++ [Call.AttachOrDetachBlockStorage vm_id "detach" d.id d.cur.project_id
        d.cur.location]) = .ok res)
    (hres : (resourceUpdateBlockStorage fuel rt api d tr).result = .diags ds)
    (herr : ds ≠ []) :
    (resourceUpdateBlockStorage fuel rt api d tr).d.cur.vm_id = some "" := by
  have hloc2 : ¬ d.old.location ≠ d.new.location := not_not.mpr hloc
  have hproj2 : ¬ d.old.project_id ≠ d.new.project_id := not_not.mpr hproj
  have hcond : d.cur.status = "Attached" ∧ strOf d.old.vm_id ≠ "" := ⟨hstatus, hprev⟩
  revert hres
  unfold resourceUpdateBlockStorage
  simp only [hget]
  rw [if_neg hloc2, if_neg hproj2, if_pos hvm, if_pos hcond]
  simp only [hat, hdet]
  intro hres
  exact updateWaitAndAttach_error_available fuel rt api blockStorage d.id d.cur.project_id
    d.cur.location { d with cur := { d.cur with status := "Available" } } _ ds hreq rfl
    hres herr

/-- What an update that ends with an error diagnostic leaves in the resource
data, in outline, when it started from freshly planned data and its opening
GET succeeded: the rejected location or project is written back; otherwise
name, size, location and project hold their previous values and `vm_id` reads
as the previous one or as the empty string. -/
theorem update_error_restores_attributes (fuel : Nat) (rt : GoEnv) (api : Client)
    (d : ResourceData) (tr : List Call) (blockStorage : JMap) (ds : List String)
    (hfresh : d.cur = d.new)
    (hget : api (tr ++ [Call.GetBlockStorage d.id d.cur.project_id d.cur.location])
      = .ok blockStorage)
    (hres : (resourceUpdateBlockStorage fuel rt api d tr).result = .diags ds)
    (herr : ds ≠ []) :
    (d.old.location ≠ d.new.location →
      (resourceUpdateBlockStorage fuel rt api d tr).d.cur.location = d.old.location) ∧
    (d.old.location = d.new.location → d.old.project_id ≠ d.new.project_id →
      (resourceUpdateBlockStorage fuel rt api d tr).d.cur.project_id = d.old.project_id) ∧
    (d.old.location = d.new.location → d.old.project_id = d.new.project_id →
      (resourceUpdateBlockStorage fuel rt api d tr).d.cur.name = d.old.name ∧
      (resourceUpdateBlockStorage fuel rt api d tr).d.cur.size = d.old.size ∧
      (resourceUpdateBlockStorage fuel rt api d tr).d.cur.location = d.old.location ∧
      (resourceUpdateBlockStorage fuel rt api d tr).d.cur.project_id = d.old.project_id ∧
      (strOf (resourceUpdateBlockStorage fuel rt api d tr).d.cur.vm_id = strOf d.old.vm_id ∨
        (strOf d.old.vm_id ≠ strOf d.new.vm_id ∧
          strOf (resourceUpdateBlockStorage fuel rt api d tr).d.cur.vm_id = ""))) ∧
    (∀ (vm_id : Int) (res : JMap),
      d.old.location = d.new.location → d.old.project_id = d.new.project_id →
      strOf d.old.vm_id ≠ strOf d.new.vm_id → strOf d.new.vm_id ≠ "" →
      d.cur.status = "Attached" → strOf d.old.vm_id ≠ "" →
      Atoi rt (strOf d.old.vm_id) = .ok vm_id →
      api (tr ++ [Call.GetBlockStorage d.id d.cur.project_id d.cur.location]
        ++ [Call.AttachOrDetachBlockStorage vm_id "detach" d.id d.cur.project_id
          d.cur.location]) = .ok res →
      (resourceUpdateBlockStorage fuel rt api d tr).d.cur.vm_id = some "") := by
  have hname : d.cur.name = d.new.name := by rw [hfresh]
  have hsize : d.cur.size = d.new.size := by rw [hfresh]
  have hvmcur : strOf d.cur.vm_id = strOf d.new.vm_id := by rw [hfresh]
  have hlocf : d.cur.location = d.new.location := by rw [hfresh]
  have hprojf : d.cur.project_id = d.new.project_id := by rw [hfresh]
  refine ⟨?_, ?_, ?_, fun vm_id res hloc hproj hvm hreq hstatus hprev hat hdet =>
    update_error_after_detach fuel rt api d tr blockStorage res ds vm_id hget hloc hproj hvm
      hreq hstatus hprev hat hdet hres herr⟩
  · intro hloc
    simp only [resourceUpdateBlockStorage, hget, hloc, ne_eq, not_false_eq_true, if_true]
  · intro hloc hproj
    simp only [resourceUpdateBlockStorage, hget, hloc, hproj, ne_eq, not_true_eq_false,
      not_false_eq_true, if_false, if_true]
  · intro hloc hproj
    have hloc2 : ¬ d.old.location ≠ d.new.location := not_not.mpr hloc
    have hproj2 : ¬ d.old.project_id ≠ d.new.project_id := not_not.mpr hproj
    have hlocr : d.cur.location = d.old.location := hlocf.trans hloc.symm
    have hprojr : d.cur.project_id = d.old.project_id := hprojf.trans hproj.symm
    revert hres
    unfold resourceUpdateBlockStorage
    simp only [hget]
    rw [if_neg hloc2, if_neg hproj2]
    by_cases hvm : strOf d.old.vm_id ≠ strOf d.new.vm_id
    · rw [if_pos hvm]
      by_cases hcond : d.cur.status = "Attached" ∧ strOf d.old.vm_id ≠ ""
      · rw [if_pos hcond]
        cases hat : Atoi rt (strOf d.old.vm_id) with
        | error err =>
          intro _
          exact ⟨rfl, rfl, hlocr, hprojr, Or.inl rfl⟩
        | ok vm_id =>
          dsimp only
          cases hdet : api (tr ++ [Call.GetBlockStorage d.id d.cur.project_id d.cur.location]
              ++ [Call.AttachOrDetachBlockStorage vm_id "detach" d.id d.cur.project_id
                d.cur.location]) with
          | error err =>
            intro _
            exact ⟨rfl, rfl, hlocr, hprojr, Or.inl rfl⟩
          | ok res =>
            dsimp only
            intro hres
            obtain ⟨h1, h2, h3, h4, h5⟩ := updateWaitAndAttach_error_restores fuel rt api
              blockStorage d.id d.cur.project_id d.cur.location
              { d with cur := { d.cur with status := "Available" } }
              (tr ++ [Call.GetBlockStorage d.id d.cur.project_id d.cur.location]
                ++ [Call.AttachOrDetachBlockStorage vm_id "detach" d.id d.cur.project_id
                  d.cur.location])
              ds hname hsize hvmcur hres herr
            refine ⟨h1, h2, h3.trans hlocr, h4.trans hprojr, ?_⟩
            rcases h5 with h | h
            · exact Or.inl h
            · exact Or.inr ⟨hvm, h⟩
      · rw [if_neg hcond]
        intro hres
        obtain ⟨h1, h2, h3, h4, h5⟩ := updateWaitAndAttach_error_restores fuel rt api
          blockStorage d.id d.cur.project_id d.cur.location d
          (tr ++ [Call.GetBlockStorage d.id d.cur.project_id d.cur.location])
          ds hname hsize hvmcur hres herr
        refine ⟨h1, h2, h3.trans hlocr, h4.trans hprojr, ?_⟩
        rcases h5 with h | h
        · exact Or.inl h
        · exact Or.inr ⟨hvm, h⟩
    · have hvm2 : strOf d.old.vm_id = strOf d.new.vm_id := not_not.mp hvm
      rw [if_neg hvm]
      intro hres
      obtain ⟨h1, h2, h3, h4, h5⟩ := updateSizeOrName_error_restores rt api blockStorage
        d.id d.cur.project_id d.cur.location d
        (tr ++ [Call.GetBlockStorage d.id d.cur.project_id d.cur.location]) ds
        hname hsize hres herr
      refine ⟨h1, h2, h4.trans hlocr, h5.trans hprojr, Or.inl ?_⟩
      rw [h3, hvmcur, hvm2]

/-- When a VM is requested and the status does not read "Available", every
error of the wait-and-attach stage writes the previous VM id back. -/
theorem updateWaitAndAttach_error_unavailable (fuel : Nat) (rt : GoEnv) (api : Client)
    (blockStorage : JMap) (blockStorageID : String) (project_id : Int) (location : String)
    (d : ResourceData) (tr : List Call) (ds : List String)
    (hreq : strOf d.new.vm_id ≠ "") (hst : d.cur.status ≠ "Available")
    (hres : (updateWaitAndAttach fuel rt api blockStorage blockStorageID project_id location
      d tr).result = .diags ds) :
    (updateWaitAndAttach fuel rt api blockStorage blockStorageID project_id location
      d tr).d.cur.vm_id = some (strOf d.old.vm_id) := by
  revert hres
  simp only [updateWaitAndAttach, hreq, hst, ne_eq, not_false_eq_true, if_true, if_false]
  repeat' split
  all_goals first
    | (intro h; cases h; done)
    | (intro _; rfl)

/-- When no VM is requested, an error of what follows the wait leaves `vm_id`
as it reads. -/
theorem updateWaitAndAttach_error_empty (fuel : Nat) (rt : GoEnv) (api : Client)
    (blockStorage : JMap) (blockStorageID : String) (project_id : Int) (location : String)
    (d : ResourceData) (tr : List Call) (ds : List String)
    (hname : d.cur.name = d.new.name) (hsize : d.cur.size = d.new.size)
    (hempty : strOf d.new.vm_id = "")
    (hres : (updateWaitAndAttach fuel rt api blockStorage blockStorageID project_id location
      d tr).result = .diags ds)
    (herr : ds ≠ []) :
    (updateWaitAndAttach fuel rt api blockStorage blockStorageID project_id location
      d tr).d.cur.vm_id = d.cur.vm_id := by
  rcases hw : waitForDetach api blockStorageID project_id location fuel tr with ⟨r, tr1⟩
  simp only [updateWaitAndAttach, hw, hempty, ne_eq, not_true_eq_false, if_false] at hres ⊢
  cases r with
  | blocked => cases hres
  | panic => cases hres
  | diags ws =>
    simp only at hres ⊢
    exact (updateSizeOrName_error_restores rt api blockStorage blockStorageID project_id
      location d tr1 ds hname hsize hres herr).2.2.1

/-- The project branch of `resourceUpdateBlockStorage`. -/
theorem update_project_branch (fuel : Nat) (rt : GoEnv) (api : Client)
    (d : ResourceData) (tr : List Call) (blockStorage : JMap)
    (hget : api (tr ++ [Call.GetBlockStorage d.id d.cur.project_id d.cur.location])
      = .ok blockStorage)
    (hloc : d.old.location = d.new.location)
    (hproj : d.old.project_id ≠ d.new.project_id) :
    resourceUpdateBlockStorage fuel rt api d tr
      = ⟨.diags ["Project ID cannot be changed once the block storage is created"],
          { d with cur := { d.cur with project_id := d.old.project_id } },
          tr ++ [Call.GetBlockStorage d.id d.cur.project_id d.cur.location]⟩ := by
  have hfmt : Errorf rt "Project ID cannot be changed once the block storage is created"
      = "Project ID cannot be changed once the block storage is created" := by
    simp [Errorf]
  simp [resourceUpdateBlockStorage, hget, hloc, hproj, hfmt]

/-- With location, project and `vm_id` unchanged the update is the size/name
category. -/
theorem update_eq_sizeOrName (fuel : Nat) (rt : GoEnv) (api : Client)
    (d : ResourceData) (tr : List Call) (blockStorage : JMap)
    (hget : api (tr ++ [Call.GetBlockStorage d.id d.cur.project_id d.cur.location])
      = .ok blockStorage)
    (hloc : d.old.location = d.new.location)
    (hproj : d.old.project_id = d.new.project_id)
    (hvm : strOf d.old.vm_id = strOf d.new.vm_id) :
    resourceUpdateBlockStorage fuel rt api d tr
      = updateSizeOrName rt api blockStorage d.id d.cur.project_id d.cur.location d
          (tr ++ [Call.GetBlockStorage d.id d.cur.project_id d.cur.location]) := by
  simp only [resourceUpdateBlockStorage, hget, hloc, hproj, hvm, ne_eq, not_true_eq_false,
    if_false]

/-- With a changed `vm_id` and nothing to detach, the update is the
wait-and-attach stage on the resource data as planned. -/
theorem update_eq_wait_no_detach (fuel : Nat) (rt : GoEnv) (api : Client)
    (d : ResourceData) (tr : List Call) (blockStorage : JMap)
    (hget : api (tr ++ [Call.GetBlockStorage d.id d.cur.project_id d.cur.location])
      = .ok blockStorage)
    (hloc : d.old.location = d.new.location)
    (hproj : d.old.project_id = d.new.project_id)
    (hvm : strOf d.old.vm_id ≠ strOf d.new.vm_id)
    (hcond : ¬ (d.cur.status = "Attached" ∧ strOf d.old.vm_id ≠ "")) :
    resourceUpdateBlockStorage fuel rt api d tr
      = updateWaitAndAttach fuel rt api blockStorage d.id d.cur.project_id d.cur.location d
          (tr ++ [Call.GetBlockStorage d.id d.cur.project_id d.cur.location]) := by
  have hloc2 : ¬ d.old.location ≠ d.new.location := not_not.mpr hloc
  have hproj2 : ¬ d.old.project_id ≠ d.new.project_id := not_not.mpr hproj
  unfold resourceUpdateBlockStorage
  simp only [hget]
  rw [if_neg hloc2, if_neg hproj2, if_pos hvm, if_neg hcond]

/-- After a successful detach the update is the wait-and-attach stage on the
resource data whose status has been set to "Available". -/
theorem update_eq_wait_after_detach (fuel : Nat) (rt : GoEnv) (api : Client)
    (d : ResourceData) (tr : List Call) (blockStorage res : JMap) (vm_id : Int)
    (hget : api (tr ++ [Call.GetBlockStorage d.id d.cur.project_id d.cur.location])
      = .ok blockStorage)
    (hloc : d.old.location = d.new.location)
    (hproj : d.old.project_id = d.new.project_id)
    (hvm : strOf d.old.vm_id ≠ strOf d.new.vm_id)
    (hstatus : d.cur.status = "Attached")
    (hprev : strOf d.old.vm_id ≠ "")
    (hat : Atoi rt (strOf d.old.vm_id) = .ok vm_id)
    (hdet : api (tr ++ [Call.GetBlockStorage d.id d.cur.project_id d.cur.location]
      ++ [Call.AttachOrDetachBlockStorage vm_id "detach" d.id d.cur.project_id
        d.cur.location]) = .ok res) :
    resourceUpdateBlockStorage fuel rt api d tr
      = updateWaitAndAttach fuel rt api blockStorage d.id d.cur.project_id d.cur.location
          { d with cur := { d.cur with status := "Available" } }
          (tr ++ [Call.GetBlockStorage d.id d.cur.project_id d.cur.location]
            ++ [Call.AttachOrDetachBlockStorage vm_id "detach" d.id d.cur.project_id
              d.cur.location]) := by
  have hloc2 : ¬ d.old.location ≠ d.new.location := not_not.mpr hloc
  have hproj2 : ¬ d.old.project_id ≠ d.new.project_id := not_not.mpr hproj
  have hcond : d.cur.status = "Attached" ∧ strOf d.old.vm_id ≠ "" := ⟨hstatus, hprev⟩
  unfold resourceUpdateBlockStorage
  simp only [hget]
  rw [if_neg hloc2, if_neg hproj2, if_pos hvm, if_pos hcond]
  simp only [hat, hdet]

/-- A previous VM id that is not a decimal number ends the update before the
detach: the error is returned and the previous VM id, name and size are
written back. -/
theorem update_atoi_failure (fuel : Nat) (rt : GoEnv) (api : Client)
    (d : ResourceData) (tr : List Call) (blockStorage : JMap) (err : String)
    (hget : api (tr ++ [Call.GetBlockStorage d.id d.cur.project_id d.cur.location])
      = .ok blockStorage)
    (hloc : d.old.location = d.new.location)
    (hproj : d.old.project_id = d.new.project_id)
    (hvm : strOf d.old.vm_id ≠ strOf d.new.vm_id)
    (hstatus : d.cur.status = "Attached")
    (hprev : strOf d.old.vm_id ≠ "")
    (hat : Atoi rt (strOf d.old.vm_id) = .error err) :
    resourceUpdateBlockStorage fuel rt api d tr
      = ⟨.diags [err], setPrevState d (strOf d.old.vm_id) d.old.name d.old.size,
          tr ++ [Call.GetBlockStorage d.id d.cur.project_id d.cur.location]⟩ := by
  have hloc2 : ¬ d.old.location ≠ d.new.location := not_not.mpr hloc
  have hproj2 : ¬ d.old.project_id ≠ d.new.project_id := not_not.mpr hproj
  have hcond : d.cur.status = "Attached" ∧ strOf d.old.vm_id ≠ "" := ⟨hstatus, hprev⟩
  unfold resourceUpdateBlockStorage
  simp only [hget]
  rw [if_neg hloc2, if_neg hproj2, if_pos hvm, if_pos hcond]
  simp only [hat]

/-- A failed detach call ends the update: the error is returned and the
previous VM id, name and size are written back. -/
theorem update_detach_failure (fuel : Nat) (rt : GoEnv) (api : Client)
    (d : ResourceData) (tr : List Call) (blockStorage : JMap) (err : String) (vm_id : Int)
    (hget : api (tr ++ [Call.GetBlockStorage d.id d.cur.project_id d.cur.location])
      = .ok blockStorage)
    (hloc : d.old.location = d.new.location)
    (hproj : d.old.project_id = d.new.project_id)
    (hvm : strOf d.old.vm_id ≠ strOf d.new.vm_id)
    (hstatus : d.cur.status = "Attached")
    (hprev : strOf d.old.vm_id ≠ "")
    (hat : Atoi rt (strOf d.old.vm_id) = .ok vm_id)
    (hdet : api (tr ++ [Call.GetBlockStorage d.id d.cur.project_id d.cur.location]
      ++ [Call.AttachOrDetachBlockStorage vm_id "detach" d.id d.cur.project_id
        d.cur.location]) = .error err) :
    resourceUpdateBlockStorage fuel rt api d tr
      = ⟨.diags [err], setPrevState d (strOf d.old.vm_id) d.old.name d.old.size,
          tr ++ [Call.GetBlockStorage d.id d.cur.project_id d.cur.location]
            ++ [Call.AttachOrDetachBlockStorage vm_id "detach" d.id d.cur.project_id
              d.cur.location]⟩ := by
  have hloc2 : ¬ d.old.location ≠ d.new.location := not_not.mpr hloc
  have hproj2 : ¬ d.old.project_id ≠ d.new.project_id := not_not.mpr hproj
  have hcond : d.cur.status = "Attached" ∧ strOf d.old.vm_id ≠ "" := ⟨hstatus, hprev⟩
  unfold resourceUpdateBlockStorage
  simp only [hget]
  rw [if_neg hloc2, if_neg hproj2, if_pos hvm, if_pos hcond]
  simp only [hat, hdet]

/-- Amended C12: in every update that starts from freshly planned resource
data, whose opening GET succeeds and that returns an error diagnostic, the
category that rejected writes its attributes back.  If the location changed,
the location is set back and nothing else is written; else if the project
changed, `project_id` is set back and nothing else is written.  Otherwise
name, size, location and `project_id` hold their previous values, and
`vm_id`: is untouched when it was not changed; holds the previous VM id when
the update fails before or at the detach (previous id not a decimal number,
detach call failed) or rejects the attach because the status does not read
"Available"; holds the empty string when a VM is requested and the failure
comes once the status reads "Available" (after a successful detach, or with
nothing to detach); and is left as requested, empty, after a detach-only
change. -/
theorem update_error_restores_category (fuel : Nat) (rt : GoEnv) (api : Client)
    (d : ResourceData) (tr : List Call) (blockStorage : JMap) (ds : List String)
    (hfresh : d.cur = d.new)
    (hget : api (tr ++ [Call.GetBlockStorage d.id d.cur.project_id d.cur.location])
      = .ok blockStorage)
    (hres : (resourceUpdateBlockStorage fuel rt api d tr).result = .diags ds)
    (herr : ds ≠ []) :
    (d.old.location ≠ d.new.location →
      (resourceUpdateBlockStorage fuel rt api d tr).d
        = { d with cur := { d.cur with location := d.old.location } }) ∧
    (d.old.location = d.new.location → d.old.project_id ≠ d.new.project_id →
      (resourceUpdateBlockStorage fuel rt api d tr).d
        = { d with cur := { d.cur with project_id := d.old.project_id } }) ∧
    (d.old.location = d.new.location → d.old.project_id = d.new.project_id →
      (resourceUpdateBlockStorage fuel rt api d tr).d.cur.name = d.old.name ∧
      (resourceUpdateBlockStorage fuel rt api d tr).d.cur.size = d.old.size ∧
      (resourceUpdateBlockStorage fuel rt api d tr).d.cur.location = d.old.location ∧
      (resourceUpdateBlockStorage fuel rt api d tr).d.cur.project_id = d.old.project_id ∧
      (strOf d.old.vm_id = strOf d.new.vm_id →
        (resourceUpdateBlockStorage fuel rt api d tr).d.cur.vm_id = d.cur.vm_id) ∧
      (strOf d.old.vm_id ≠ strOf d.new.vm_id →
        (d.cur.status = "Attached" → strOf d.old.vm_id ≠ "" →
          (∀ err, Atoi rt (strOf d.old.vm_id) = .error err →
            (resourceUpdateBlockStorage fuel rt api d tr).d.cur.vm_id
              = some (strOf d.old.vm_id)) ∧
          (∀ vm_id, Atoi rt (strOf d.old.vm_id) = .ok vm_id →
            (∀ err,
              api (tr ++ [Call.GetBlockStorage d.id d.cur.project_id d.cur.location]
                ++ [Call.AttachOrDetachBlockStorage vm_id "detach" d.id d.cur.project_id
                  d.cur.location]) = .error err →
              (resourceUpdateBlockStorage fuel rt api d tr).d.cur.vm_id
                = some (strOf d.old.vm_id)) ∧
            (∀ res,
              api (tr ++ [Call.GetBlockStorage d.id d.cur.project_id d.cur.location]
                ++ [Call.AttachOrDetachBlockStorage vm_id "detach" d.id d.cur.project_id
                  d.cur.location]) = .ok res →
              (strOf d.new.vm_id ≠ "" →
                (resourceUpdateBlockStorage fuel rt api d tr).d.cur.vm_id = some "") ∧
              (strOf d.new.vm_id = "" →
                (resourceUpdateBlockStorage fuel rt api d tr).d.cur.vm_id = d.cur.vm_id)))) ∧
        (¬ (d.cur.status = "Attached" ∧ strOf d.old.vm_id ≠ "") →
          (strOf d.new.vm_id ≠ "" → d.cur.status = "Available" →
            (resourceUpdateBlockStorage fuel rt api d tr).d.cur.vm_id = some "") ∧
          (strOf d.new.vm_id ≠ "" → d.cur.status ≠ "Available" →
            (resourceUpdateBlockStorage fuel rt api d tr).d.cur.vm_id
              = some (strOf d.old.vm_id)) ∧
          (strOf d.new.vm_id = "" →
            (resourceUpdateBlockStorage fuel rt api d tr).d.cur.vm_id = d.cur.vm_id)))) := by
  have hname : d.cur.name = d.new.name := by rw [hfresh]
  have hsize : d.cur.size = d.new.size := by rw [hfresh]
  obtain ⟨_, _, hattrs, _⟩ :=
    update_error_restores_attributes fuel rt api d tr blockStorage ds hfresh hget hres herr
  refine ⟨?_, ?_, ?_⟩
  · intro hloc
    rw [update_location_branch fuel rt api d tr blockStorage hget hloc]
  · intro hloc hproj
    rw [update_project_branch fuel rt api d tr blockStorage hget hloc hproj]
  · intro hloc hproj
    obtain ⟨h1, h2, h3, h4, _⟩ := hattrs hloc hproj
    refine ⟨h1, h2, h3, h4, ?_, ?_⟩
    · intro hvm
      have heq := update_eq_sizeOrName fuel rt api d tr blockStorage hget hloc hproj hvm
      rw [heq] at hres ⊢
      exact (updateSizeOrName_error_restores rt api blockStorage d.id d.cur.project_id
        d.cur.location d _ ds hname hsize hres herr).2.2.1
    · intro hvm
      refine ⟨?_, ?_⟩
      · intro hstatus hprev
        refine ⟨?_, ?_⟩
        · intro err hat
          rw [update_atoi_failure fuel rt api d tr blockStorage err hget hloc hproj hvm
            hstatus hprev hat]
          rfl
        · intro vm_id hat
          refine ⟨?_, ?_⟩
          · intro err hdet
            rw [update_detach_failure fuel rt api d tr blockStorage err vm_id hget hloc
              hproj hvm hstatus hprev hat hdet]
            rfl
          · intro res hdet
            have heq := update_eq_wait_after_detach fuel rt api d tr blockStorage res vm_id
              hget hloc hproj hvm hstatus hprev hat hdet
            rw [heq] at hres ⊢
            refine ⟨?_, ?_⟩
            · intro hreq
              exact updateWaitAndAttach_error_available fuel rt api blockStorage d.id
                d.cur.project_id d.cur.location
                { d with cur := { d.cur with status := "Available" } } _ ds hreq rfl
                hres herr
            · intro hempty
              exact updateWaitAndAttach_error_empty fuel rt api blockStorage d.id
                d.cur.project_id d.cur.location
                { d with cur := { d.cur with status := "Available" } } _ ds hname hsize
                hempty hres herr
      · intro hcond
        have heq := update_eq_wait_no_detach fuel rt api d tr blockStorage hget hloc hproj
          hvm hcond
        rw [heq] at hres ⊢
        refine ⟨?_, ?_, ?_⟩
        · intro hreq hav
          exact updateWaitAndAttach_error_available fuel rt api blockStorage d.id
            d.cur.project_id d.cur.location d _ ds hreq hav hres herr
        · intro hreq hnav
          exact updateWaitAndAttach_error_unavailable fuel rt api blockStorage d.id
            d.cur.project_id d.cur.location d _ ds hreq hnav hres
        · intro hempty
          exact updateWaitAndAttach_error_empty fuel rt api blockStorage d.id
            d.cur.project_id d.cur.location d _ ds hname hsize hempty hres herr

/-- Witness for amended C12: the volume moves from VM 12 to VM 34 and the
attach fails after the detach has succeeded; the name is the previous one and
`vm_id` is the empty string. -/
theorem update_error_restores_category_witness :
    (resourceUpdateBlockStorage 5 rtExact apiAttachFails dataMoveVm []).d.cur.name
      = dataMoveVm.old.name ∧
    (resourceUpdateBlockStorage 5 rtExact apiAttachFails dataMoveVm []).d.cur.vm_id
      = some "" :=
  ⟨((update_error_restores_category 5 rtExact apiAttachFails dataMoveVm []
      getResponseAttached ["attach failed"] rfl rfl (by rw [update_failed_attach_run])
      (by simp)).2.2 rfl rfl).1,
   ((((((update_error_restores_category 5 rtExact apiAttachFails dataMoveVm []
      getResponseAttached ["attach failed"] rfl rfl (by rw [update_failed_attach_run])
      (by simp)).2.2 rfl rfl).2.2.2.2.2 (by decide)).1 rfl (by decide)).2 12 rfl).2
        [("code", .num 200)] rfl).1 (by decide)⟩

/-- Counterexample to C12: six updates that return an error diagnostic and
leave a requested change in place.  (1) VM 12 to VM 34, the detach succeeds,
the attach fails: `vm_id` is the empty string, not "12".  (2) The status reads
"Available", the stored `vm_id` is "12", the attach to VM 34 fails: `vm_id` is
the empty string.  (3) A detach-only change together with a growth that is
rejected: `vm_id` stays empty.  (4) Location and size changed: the size keeps
its new value.  (5) Project and size changed: the size keeps its new value.
(6) The opening GET fails: the location keeps its new value. -/
theorem update_error_paths_not_restored :
    (dataMoveVm.old.vm_id = some "12" ∧
      (resourceUpdateBlockStorage 5 rtExact apiAttachFails dataMoveVm []).result
        = .diags ["attach failed"] ∧
      (resourceUpdateBlockStorage 5 rtExact apiAttachFails dataMoveVm []).trace
        = [Call.GetBlockStorage "42" 7 "Delhi",
            Call.AttachOrDetachBlockStorage 12 "detach" "42" 7 "Delhi",
            Call.GetBlockStorage "42" 7 "Delhi",
            Call.AttachOrDetachBlockStorage 34 "attach" "42" 7 "Delhi"] ∧
      (resourceUpdateBlockStorage 5 rtExact apiAttachFails dataMoveVm []).d.cur.vm_id
        = some "") ∧
    (dataAttachStale.old.vm_id = some "12" ∧
      (resourceUpdateBlockStorage 5 rtExact apiPollThenFail dataAttachStale []).result
        = .diags ["attach failed"] ∧
      (resourceUpdateBlockStorage 5 rtExact apiPollThenFail dataAttachStale []).d.cur.vm_id
        = some "") ∧
    (dataDetachAndGrow.old.vm_id = some "12" ∧
      (resourceUpdateBlockStorage 5 rtExact apiDetachThenPlans dataDetachAndGrow []).result
        = .diags
          ["You cannot upgrade a block storage name or size unless it is attached to a node"] ∧
      (resourceUpdateBlockStorage 5 rtExact apiDetachThenPlans dataDetachAndGrow []).d.cur.vm_id
        = some "") ∧
    (dataSizeAndLocationChanged.old.size = 1000 ∧
      (resourceUpdateBlockStorage 0 rtExact apiEmptyOk dataSizeAndLocationChanged []).result
        = .diags ["Location cannot be changed once the block storage is created"] ∧
      (resourceUpdateBlockStorage 0 rtExact apiEmptyOk dataSizeAndLocationChanged []).d.cur.size
        = 2000) ∧
    (dataSizeAndProjectChanged.old.size = 1000 ∧
      (resourceUpdateBlockStorage 0 rtExact apiEmptyOk dataSizeAndProjectChanged []).result
        = .diags ["Project ID cannot be changed once the block storage is created"] ∧
      (resourceUpdateBlockStorage 0 rtExact apiEmptyOk dataSizeAndProjectChanged []).d.cur.size
        = 2000) ∧
    (dataLocationChanged.old.location = "Delhi" ∧
      (resourceUpdateBlockStorage 0 rtExact apiTimeout dataLocationChanged []).result
        = .diags ["error finding Block Storage with ID 42: timeout"] ∧
      (resourceUpdateBlockStorage 0 rtExact apiTimeout dataLocationChanged []).d.cur.location
        = "Mumbai") := by
  have h12 : Atoi rtExact "12" = .ok 12 := by rfl
  have h34 : Atoi rtExact "34" = .ok 34 := by rfl
  have hround : ∀ x : ℚ, rtExact.round x = x := fun _ => rfl
  have h2 : (2 : ℚ) * 1000 = 2000 := by norm_num
  have h1 : ¬ (1000 : ℚ) = 2000 := by norm_num
  have hnf : Contains "timeout" "not found" = false := by decide
  have hloc := update_location_branch 0 rtExact apiEmptyOk dataSizeAndLocationChanged
    [] [] rfl (by decide)
  have hproj := update_project_branch 0 rtExact apiEmptyOk dataSizeAndProjectChanged
    [] [] rfl rfl (by decide)
  refine ⟨?_, ?_, ?_, ?_, ?_, ?_⟩
  · rw [update_failed_attach_run]
    exact ⟨rfl, rfl, rfl, rfl⟩
  · refine ⟨rfl, ?_, ?_⟩ <;>
      simp [resourceUpdateBlockStorage, updateWaitAndAttach, waitForDetach, apiPollThenFail,
        dataAttachStale, sampleAttrs, getResponseAvailable, setPrevState, strOf, h34,
        List.lookup]
  · refine ⟨rfl, ?_, ?_⟩ <;>
      simp [resourceUpdateBlockStorage, updateWaitAndAttach, waitForDetach, updateSizeOrName,
        validateSize, validateSizeLoop, apiDetachThenPlans, dataDetachAndGrow, attachedAttrs,
        sampleAttrs, samplePlans, getResponseAvailable, getResponseAttached, hround, Errorf,
        strOf, h12, h2, h1, List.lookup]
  · rw [hloc]
    exact ⟨rfl, rfl, rfl⟩
  · rw [hproj]
    exact ⟨rfl, rfl, rfl⟩
  · refine ⟨rfl, ?_, ?_⟩ <;>
      simp [resourceUpdateBlockStorage, apiTimeout, hnf] <;> rfl

end E2E
